import Mathlib

/-!
# Verification of the content-aligned image-similarity engine

Shallow embedding of the similarity engine in `ai_pic_compare/pic_compare.py`.
Images are modelled as structures carrying dimensions, a channel count and a
total pixel function with 8-bit sample values (naturals in `[0, 255]`); the
floating-point arithmetic of the source is modelled exactly over `ℚ` (and over
`ℝ` where the source takes square roots).
-/

namespace PicCompare

open Finset

/-- A raster image: `h` rows, `w` columns, `c` channels per pixel, and the
sample function `px y x ch` (8-bit values; indices outside the
`h × w × c` grid are irrelevant to the engine and carry arbitrary values). -/
structure Img where
  h : ℕ
  w : ℕ
  c : ℕ
  px : ℕ → ℕ → ℕ → ℕ

/-- Pixel area of an image, `h * w` (the quantity the source compares with
`h1 * w1 <= h2 * w2`). -/
def Img.area (i : Img) : ℕ := i.h * i.w

/-- A valid 8-bit image: every sample value is at most 255. -/
def Img.Valid (i : Img) : Prop := ∀ y x ch, i.px y x ch ≤ 255

/-- The set of coordinates `(y, x)` of visible pixels: for a 4-channel image
those with alpha strictly above 10 (`mask = alpha > 10`), otherwise the whole
grid (`np.ones(img.shape[:2])`).  This is `np.argwhere(mask)` of
`extract_content_bbox`. -/
def visibleCoords (img : Img) : Finset (ℕ × ℕ) :=
  if img.c = 4 then
    (Finset.range img.h ×ˢ Finset.range img.w).filter (fun p => 10 < img.px p.1 p.2 3)
  else
    Finset.range img.h ×ˢ Finset.range img.w

/-- Result of `extract_content_bbox`: the tuple
`(x, y, w, h, content_img, has_alpha)`. -/
structure BBox where
  x : ℕ
  y : ℕ
  w : ℕ
  h : ℕ
  content : Img
  has_alpha : Bool

/-- `extract_content_bbox(img)`: bounding box of the visible pixels and the
cropped content.  If no pixel is visible (`len(coords) == 0`) the whole image
is returned unchanged. -/
def extract_content_bbox (img : Img) : BBox :=
  let has_alpha : Bool := img.c = 4
  let coords := visibleCoords img
  if hne : coords.Nonempty then
    let y_min := (coords.image Prod.fst).min' (hne.image _)
    let x_min := (coords.image Prod.snd).min' (hne.image _)
    let y_max := (coords.image Prod.fst).max' (hne.image _)
    let x_max := (coords.image Prod.snd).max' (hne.image _)
    let content : Img :=
      ⟨y_max - y_min + 1, x_max - x_min + 1, img.c,
        fun y x ch => img.px (y_min + y) (x_min + x) ch⟩
    ⟨x_min, y_min, x_max - x_min + 1, y_max - y_min + 1, content, has_alpha⟩
  else
    ⟨0, 0, img.w, img.h, img, has_alpha⟩

/-- Model of `cv2.resize(img, (tw, th), interpolation=cv2.INTER_LANCZOS4)`.
The output dimensions are exactly the requested target, as for the library
call.  The Lanczos interpolation kernel itself is modelled as
coordinate-mapped sampling: output pixel `(y, x)` reads the source pixel at
the proportionally mapped coordinates.  No theorem of this development
relies on the interpolated values of a non-constant image; the development
uses only the properties shared by every normalized resampling kernel: the
exact output dimensions, the channel count, and the fact that a resample of
a constant image is that same constant. -/
def cvResize (img : Img) (tw th : ℕ) : Img :=
  ⟨th, tw, img.c, fun y x ch => img.px (y * img.h / th) (x * img.w / tw) ch⟩

/-- `resize_content_to_same_size(img1_content, img2_content)` on the only path
the engine uses (`target_size=None`): the target is the `(w, h)` of the image
with the smaller pixel area (ties, `h1*w1 <= h2*w2`, go to the first image),
and each image whose `(w, h)` differs from the target is resized to it. -/
def resize_content_to_same_size (img1_content img2_content : Img) : Img × Img :=
  let h1 := img1_content.h
  let w1 := img1_content.w
  let h2 := img2_content.h
  let w2 := img2_content.w
  let target_size : ℕ × ℕ := if h1 * w1 ≤ h2 * w2 then (w1, h1) else (w2, h2)
  let resized1 :=
    if (w1, h1) ≠ target_size then cvResize img1_content target_size.1 target_size.2
    else img1_content
  let resized2 :=
    if (w2, h2) ≠ target_size then cvResize img2_content target_size.1 target_size.2
    else img2_content
  (resized1, resized2)

/-- `convert_to_white_bg(img, has_alpha)`: alpha-blend a 4-channel image over
a white backdrop (`(bgr*alpha + 255*(255-alpha)) / 255`, truncated to `uint8`,
which is natural-number division here), keep the first three channels of any
other 3-or-more-channel image, and pass anything else through. -/
def convert_to_white_bg (img : Img) (has_alpha : Bool) : Img :=
  if has_alpha = true ∧ img.c = 4 then
    ⟨img.h, img.w, 3, fun y x ch =>
      (img.px y x ch * img.px y x 3 + 255 * (255 - img.px y x 3)) / 255⟩
  else if 3 ≤ img.c then
    ⟨img.h, img.w, 3, img.px⟩
  else
    img

/-- `np.mean((aligned1.astype(float) - aligned2.astype(float)) ** 2)` over two
3-channel images of the first image's shape: the mean of the squared
per-channel, per-pixel differences. -/
def imgMSE (a b : Img) : ℚ :=
  (∑ y in Finset.range a.h, ∑ x in Finset.range a.w, ∑ ch in Finset.range 3,
      ((a.px y x ch : ℚ) - (b.px y x ch : ℚ)) ^ 2)
    / (a.h * a.w * 3)

/-- Model of `cv2.cvtColor(img, cv2.COLOR_BGR2GRAY)` for 8-bit images:
OpenCV's fixed-point luma, `(1868*B + 9617*G + 4899*R + 8192) >> 14`
(the 14-bit fixed-point form of `0.114*B + 0.587*G + 0.299*R`). -/
def cvtColorBGR2GRAY (img : Img) : Img :=
  ⟨img.h, img.w, 1, fun y x _ =>
    (1868 * img.px y x 0 + 9617 * img.px y x 1 + 4899 * img.px y x 2 + 8192) / 16384⟩

/-- Sample mean, over the 7×7 window with top-left corner `(ty, tx)`, of a
function of the two grayscale images (the `uniform_filter` values used by
`skimage.metrics.structural_similarity` with its default `win_size = 7`). -/
def winMean (f : ℕ → ℕ → ℚ) (ty tx : ℕ) : ℚ :=
  (∑ dy in Finset.range 7, ∑ dx in Finset.range 7, f (ty + dy) (tx + dx)) / 49

/-- One entry of the SSIM map of `skimage.metrics.structural_similarity` for
8-bit grayscale input at default settings: 7×7 uniform window, sample
(co)variance normalization `49/48`, `data_range = 255`, `K1 = 0.01`,
`K2 = 0.03` (so `C1 = 2.55²` and `C2 = 7.65²`).  The window is addressed by
its top-left corner. -/
def ssimWindow (g1 g2 : Img) (ty tx : ℕ) : ℚ :=
  let ux := winMean (fun y x => (g1.px y x 0 : ℚ)) ty tx
  let uy := winMean (fun y x => (g2.px y x 0 : ℚ)) ty tx
  let uxx := winMean (fun y x => (g1.px y x 0 : ℚ) ^ 2) ty tx
  let uyy := winMean (fun y x => (g2.px y x 0 : ℚ) ^ 2) ty tx
  let uxy := winMean (fun y x => (g1.px y x 0 : ℚ) * (g2.px y x 0 : ℚ)) ty tx
  let vx := (49 / 48 : ℚ) * (uxx - ux ^ 2)
  let vy := (49 / 48 : ℚ) * (uyy - uy ^ 2)
  let vxy := (49 / 48 : ℚ) * (uxy - ux * uy)
  let C1 := ((51 : ℚ) / 20) ^ 2
  let C2 := ((153 : ℚ) / 20) ^ 2
  ((2 * ux * uy + C1) * (2 * vxy + C2)) / ((ux ^ 2 + uy ^ 2 + C1) * (vx + vy + C2))

/-- Model of `skimage.metrics.structural_similarity(gray1, gray2, full=True)`
(score component) for 8-bit grayscale input at default settings: the mean of
the SSIM map over the windows that lie fully inside the image (the library
computes the map everywhere and then crops a `(win_size-1)/2 = 3` pixel
border, which leaves exactly the `(h-6)·(w-6)` fully interior windows).
This is the score of the non-raising path (both sides at least 7): on
smaller input the library raises `ValueError` instead of returning — that
path is modelled by `ssim_win_size_exceeds` and `compare_decoded_checked`,
and the placeholder value `0` this formula takes there is never the value
of any real run. -/
def structural_similarity (g1 g2 : Img) : ℚ :=
  (∑ ty in Finset.range (g1.h - 6), ∑ tx in Finset.range (g1.w - 6), ssimWindow g1 g2 ty tx)
    / ((g1.h - 6) * (g1.w - 6))

/-- `cv2.calcHist([img], [ch], None, [256], [0, 256])` viewed as a function
from bin index to count: the number of pixels of channel `ch` whose value is
exactly the bin index (8-bit values fall one per bin). -/
def calcHist (img : Img) (ch : ℕ) (i : ℕ) : ℚ :=
  ((Finset.range img.h ×ˢ Finset.range img.w).filter
    (fun p => img.px p.1 p.2 ch = i)).card

/-- Model of `cv2.normalize(hist, hist)` at its defaults
(`norm_type=cv2.NORM_L2`, `alpha=1`): scale the 256-bin vector to unit
Euclidean norm. -/
noncomputable def cvNormalizeL2 (f : ℕ → ℝ) : ℕ → ℝ :=
  fun i => f i / Real.sqrt (∑ j in Finset.range 256, f j ^ 2)

/-- `cv2.compareHist(h1, h2, cv2.HISTCMP_CORREL)` on 256-bin histograms: the
Pearson correlation coefficient
`∑ (h1-mean h1)(h2-mean h2) / √(∑ (h1-mean h1)² · ∑ (h2-mean h2)²)`
(with Lean's `x / 0 = 0` convention at a vanishing denominator, where the
engine's surrounding `max(0, ·)` also yields `0`). -/
noncomputable def compareHistCorrel (h1 h2 : ℕ → ℝ) : ℝ :=
  let m1 := (∑ i in Finset.range 256, h1 i) / 256
  let m2 := (∑ i in Finset.range 256, h2 i) / 256
  (∑ i in Finset.range 256, (h1 i - m1) * (h2 i - m2)) /
    Real.sqrt ((∑ i in Finset.range 256, (h1 i - m1) ^ 2) *
      (∑ i in Finset.range 256, (h2 i - m2) ^ 2))

/-- One iteration of the histogram loop of `calculate_aligned_similarity`:
per-channel 256-bin histograms, L2-normalized in place, correlation
compared, clamped by `max(0, corr)`. -/
noncomputable def channelHistSim (a b : Img) (ch : ℕ) : ℝ :=
  max 0 (compareHistCorrel
    (cvNormalizeL2 (fun i => (calcHist a ch i : ℝ)))
    (cvNormalizeL2 (fun i => (calcHist b ch i : ℝ))))

/-- `np.mean(hist_similarities)` over the three channels of the histogram
loop of `calculate_aligned_similarity`. -/
noncomputable def avgHistSimilarity (a b : Img) : ℝ :=
  (channelHistSim a b 0 + channelHistSim a b 1 + channelHistSim a b 2) / 3

/-- The dictionary returned by `calculate_aligned_similarity`. -/
structure AlignedSim where
  pixel_similarity : ℚ
  ssim : ℚ
  histogram_similarity : ℝ
  perceptual_similarity : ℝ
  mse : ℚ
  aligned_size : ℕ × ℕ
  total_pixels : ℕ

/-- `calculate_aligned_similarity(img1_content, img2_content, has_alpha1,
has_alpha2)`: flatten both contents onto white, align them to a common size,
and compute MSE, pixel similarity, SSIM, histogram similarity, and the
weighted composite `ssim*0.5 + pixel*0.3 + hist*0.2`.  These are the values
of the successful path; when the aligned images are smaller than the 7×7
SSIM window the real function raises inside the SSIM call instead of
returning them — that outcome is modelled by `ssim_win_size_exceeds` and
`compare_decoded_checked`. -/
noncomputable def calculate_aligned_similarity
    (img1_content img2_content : Img) (has_alpha1 has_alpha2 : Bool) : AlignedSim :=
  let bgr1 := convert_to_white_bg img1_content has_alpha1
  let bgr2 := convert_to_white_bg img2_content has_alpha2
  let aligned := resize_content_to_same_size bgr1 bgr2
  let aligned1 := aligned.1
  let aligned2 := aligned.2
  let mse := imgMSE aligned1 aligned2
  let max_mse : ℚ := 255 * 255 * 3
  let pixel_similarity := 1 - mse / max_mse
  let ssim_score :=
    structural_similarity (cvtColorBGR2GRAY aligned1) (cvtColorBGR2GRAY aligned2)
  let avg_hist_similarity := avgHistSimilarity aligned1 aligned2
  { pixel_similarity := pixel_similarity
    ssim := ssim_score
    histogram_similarity := avg_hist_similarity
    perceptual_similarity :=
      (ssim_score : ℝ) * 0.5 + (pixel_similarity : ℝ) * 0.3 + avg_hist_similarity * 0.2
    mse := mse
    aligned_size := (aligned1.w, aligned1.h)
    total_pixels := aligned1.h * aligned1.w }

/-- Model of `PIL.Image.convert('L')`: Pillow's fixed-point ITU-R 601-2 luma,
`(R*19595 + G*38470 + B*7471 + 0x8000) >> 16`.  The stored channel order is
BGR (as decoded by `cv2.imread`), so red is channel 2 and blue channel 0 of
the same underlying color data Pillow reads from the file. -/
def pilGrayscaleL (img : Img) : Img :=
  ⟨img.h, img.w, 1, fun y x _ =>
    (19595 * img.px y x 2 + 38470 * img.px y x 1 + 7471 * img.px y x 0 + 32768) / 65536⟩

/-- The 2-D type-II DCT used by `imagehash.phash`
(`scipy.fftpack.dct(scipy.fftpack.dct(pixels, axis=0), axis=1)`, unnormalized)
on a 32×32 grid. -/
noncomputable def dct2D32 (p : ℕ → ℕ → ℝ) (u v : ℕ) : ℝ :=
  2 * ∑ m in Finset.range 32,
    (2 * ∑ n in Finset.range 32,
      p n m * Real.cos (Real.pi * u * (2 * n + 1) / 64)) *
    Real.cos (Real.pi * v * (2 * m + 1) / 64)

/-- `numpy.median` of an 8×8 array: the average of the two middle elements of
the 64 sorted values. -/
noncomputable def npMedian64 (f : ℕ → ℕ → ℝ) : ℝ :=
  let l := (List.range 8).flatMap (fun u => (List.range 8).map (fun v => f u v))
  let sorted := l.insertionSort (· ≤ ·)
  (sorted.getD 31 0 + sorted.getD 32 0) / 2

/-- Model of `imagehash.phash(image)` at its defaults (`hash_size=8`,
`highfreq_factor=4`): grayscale, 32×32 Lanczos resample (the resample kernel
modelled as in `cvResize`), 2-D DCT-II, keep the 8×8 low-frequency corner,
threshold against its median.  Only the fact that the bit signature is a
deterministic function of the image is used by the development. -/
noncomputable def phashBits (img : Img) (u v : ℕ) : Bool :=
  let g := cvResize (pilGrayscaleL img) 32 32
  let p : ℕ → ℕ → ℝ := fun y x => (g.px y x 0 : ℝ)
  let low : ℕ → ℕ → ℝ := fun a b => dct2D32 p a b
  if npMedian64 low < low u v then true else false

/-- Model of `imagehash.dhash(image)` at its default `hash_size=8`:
grayscale, resample to a 9×8 grid (kernel modelled as in `cvResize`), and a
horizontal gradient bit `pixels[y][x+1] > pixels[y][x]`. -/
def dhashBits (img : Img) (y x : ℕ) : Bool :=
  let g := cvResize (pilGrayscaleL img) 9 8
  g.px y x 0 < g.px y (x + 1) 0

/-- `hash1 - hash2` of two `imagehash` hashes: the number of positions of the
8×8 bit grids where the two hashes differ (Hamming distance). -/
def hashHammingDist (f g : ℕ → ℕ → Bool) : ℕ :=
  ((Finset.range 8 ×ˢ Finset.range 8).filter (fun p => f p.1 p.2 ≠ g p.1 p.2)).card

/-- `calculate_phash(img1_path, img2_path)` on the decoded images: the
Hamming distance of the two perceptual hashes of the original (uncropped,
unflattened) images. -/
noncomputable def calculate_phash (img1 img2 : Img) : ℕ :=
  hashHammingDist (phashBits img1) (phashBits img2)

/-- `calculate_dhash(img1_path, img2_path)` on the decoded images. -/
def calculate_dhash (img1 img2 : Img) : ℕ :=
  hashHammingDist (dhashBits img1) (dhashBits img2)

/-- The result dictionary of `compare_images`. -/
structure CompareResult where
  Perceptual_Similarity : ℝ
  Pixel_Similarity : ℚ
  SSIM : ℚ
  Histogram_Similarity : ℝ
  MSE : ℚ
  pHash_distance : ℕ
  dHash_distance : ℕ
  aligned_size : ℕ × ℕ
  content1_size : ℕ × ℕ
  content2_size : ℕ × ℕ

/-- The report formulas of `compare_images` after both images have been
read and decoded: content extraction, aligned similarity, the two hash
distances, and the assembled result dictionary.  Whether the program
actually returns this dictionary — it raises in the SSIM step when the
aligned pair is smaller than the 7×7 window — is modelled by
`compare_decoded_checked`. -/
noncomputable def compare_decoded (img1 img2 : Img) : CompareResult :=
  let b1 := extract_content_bbox img1
  let b2 := extract_content_bbox img2
  let aligned_sim := calculate_aligned_similarity b1.content b2.content b1.has_alpha b2.has_alpha
  { Perceptual_Similarity := aligned_sim.perceptual_similarity
    Pixel_Similarity := aligned_sim.pixel_similarity
    SSIM := aligned_sim.ssim
    Histogram_Similarity := aligned_sim.histogram_similarity
    MSE := aligned_sim.mse
    pHash_distance := calculate_phash img1 img2
    dHash_distance := calculate_dhash img1 img2
    aligned_size := aligned_sim.aligned_size
    content1_size := (b1.w, b1.h)
    content2_size := (b2.w, b2.h) }

/-- The error classes a `compare_images` call can surface:
`FileNotFoundError` for a path that does not exist, the `ValueError` raised
by `compare_images` itself when `cv2.imread` cannot decode the resource,
and the `ValueError` that `skimage.metrics.structural_similarity` raises
(and `compare_images` does not catch) when its 7×7 window exceeds the
aligned image extent. -/
inductive CompareError where
  | fileNotFound (path : String)
  | cannotReadImage (path : String)
  | winSizeExceedsImageExtent
deriving DecidableEq

/-- The raising condition of `skimage.metrics.structural_similarity` at its
default `win_size = 7`: the library raises
`ValueError("win_size exceeds image extent...")` whenever any side of either
input is below 7. -/
def ssim_win_size_exceeds (a b : Img) : Prop :=
  a.h < 7 ∨ a.w < 7 ∨ b.h < 7 ∨ b.w < 7

instance (a b : Img) : Decidable (ssim_win_size_exceeds a b) := by
  unfold ssim_win_size_exceeds
  infer_instance

/-- The observable outcome of the pure core of `compare_images` after both
images have been decoded.  The source computes the MSE and then calls
`skimage.metrics.structural_similarity` on the aligned pair; when the
aligned images are smaller than the 7×7 SSIM window the library raises a
`ValueError` which `compare_images` does not catch, so the call yields no
report at all.  Otherwise the full report of `compare_decoded` is
returned. -/
noncomputable def compare_decoded_checked (img1 img2 : Img) :
    Except CompareError CompareResult :=
  if ssim_win_size_exceeds
      (resize_content_to_same_size
        (convert_to_white_bg (extract_content_bbox img1).content
          (extract_content_bbox img1).has_alpha)
        (convert_to_white_bg (extract_content_bbox img2).content
          (extract_content_bbox img2).has_alpha)).1
      (resize_content_to_same_size
        (convert_to_white_bg (extract_content_bbox img1).content
          (extract_content_bbox img1).has_alpha)
        (convert_to_white_bg (extract_content_bbox img2).content
          (extract_content_bbox img2).has_alpha)).2
  then .error .winSizeExceedsImageExtent
  else .ok (compare_decoded img1 img2)

/-- `compare_images(img1_path, img2_path)` including its input validation,
over an abstract filesystem: `pathExists` models `Path(p).exists()` and
`imread` models `cv2.imread(p, cv2.IMREAD_UNCHANGED)` (`none` when the
resource cannot be decoded).  The checks run in the source's order: existence
of path 1, existence of path 2, decodability of image 1, decodability of
image 2; an error aborts the call with no result dictionary, and the
uncaught SSIM `ValueError` of the comparison core propagates. -/
noncomputable def compare_images (pathExists : String → Bool) (imread : String → Option Img)
    (img1_path img2_path : String) : Except CompareError CompareResult :=
  if pathExists img1_path = false then .error (.fileNotFound img1_path)
  else if pathExists img2_path = false then .error (.fileNotFound img2_path)
  else
    match imread img1_path, imread img2_path with
    | none, _ => .error (.cannotReadImage img1_path)
    | some _, none => .error (.cannotReadImage img2_path)
    | some img1, some img2 => compare_decoded_checked img1 img2

/-! ## Spec-side definitions (for the refinement claim C7) -/

/-- Following the spec's words: normalize a 256-bin histogram to sum to 1. -/
noncomputable def normalizeSumToOne (f : ℕ → ℝ) : ℕ → ℝ :=
  fun i => f i / (∑ j in Finset.range 256, f j)

/-- Following the spec's words: per-channel value
"compute a 256-bin intensity histogram for both images, normalize each
histogram to sum to 1, and compute the Pearson correlation coefficient
between the two normalized histograms; clamp negative correlations to 0"
(`compareHistCorrel` is exactly the Pearson correlation coefficient of two
256-bin vectors). -/
noncomputable def channelHistSimSpec (a b : Img) (ch : ℕ) : ℝ :=
  max 0 (compareHistCorrel
    (normalizeSumToOne (fun i => (calcHist a ch i : ℝ)))
    (normalizeSumToOne (fun i => (calcHist b ch i : ℝ))))

/-- Following the spec's words: "average the three per-channel values". -/
noncomputable def histogramSimilaritySpec (a b : Img) : ℝ :=
  (channelHistSimSpec a b 0 + channelHistSimSpec a b 1 + channelHistSimSpec a b 2) / 3

/-! ## Concrete images used by witnesses and counterexamples -/

/-- A concrete instance for C2: a 1×1 image, the smaller of the pair. -/
def C2imgSmall : Img := ⟨1, 1, 3, fun _ _ _ => 7⟩

/-- A concrete instance for C2: a 1×2 image, the larger of the pair. -/
def C2imgLarge : Img := ⟨1, 2, 3, fun _ _ _ => 9⟩

/-- First image of the C3 counterexample: one row of two pixels (area 2). -/
def C3imgA : Img := ⟨1, 2, 3, fun _ _ _ => 0⟩

/-- Second image of the C3 counterexample: one column of two pixels
(area 2, different width and height). -/
def C3imgB : Img := ⟨2, 1, 3, fun _ _ _ => 0⟩

/-- First image of the C4 counterexample: a uniform black 7×8 image.  Its
content region is 7×8, large enough for the 7×7 SSIM window. -/
def C4imgA : Img := ⟨7, 8, 3, fun _ _ _ => 0⟩

/-- Second image of the C4 counterexample: a uniform black 56×1 column —
the same pixel area 56 as `C4imgA`, but only 1 pixel wide, below the 7×7
SSIM window. -/
def C4imgB : Img := ⟨56, 1, 3, fun _ _ _ => 0⟩

/-- A concrete 7×7 opaque image for the C4 witness. -/
def C4imgC : Img := ⟨7, 7, 3, fun y x _ => 10 * y + x⟩

/-- The other member of the concrete C4 witness pair, same dimensions. -/
def C4imgD : Img := ⟨7, 7, 3, fun y x _ => 100 + y + x⟩

/-- First image of the C5 counterexample: 7×7 vertical stripes,
even columns black, odd columns white. -/
def C5imgA : Img := ⟨7, 7, 3, fun _ x _ => if x % 2 = 0 then 0 else 255⟩

/-- Second image of the C5 counterexample: the pointwise inversion of
`C5imgA` (stripes shifted by one column), so the structure is maximally
anti-correlated. -/
def C5imgB : Img := ⟨7, 7, 3, fun _ x _ => if x % 2 = 0 then 255 else 0⟩

/-- A concrete fully transparent 2×2 RGBA image (all samples 0). -/
def C8img : Img := ⟨2, 2, 4, fun _ _ _ => 0⟩

/-- A concrete fully transparent 1×1 RGBA image (too small for the SSIM
window: comparing it raises). -/
def C10imgA : Img := ⟨1, 1, 4, fun _ _ _ => 0⟩

/-- A concrete fully transparent 2×3 RGBA image (too small for the SSIM
window). -/
def C10imgB : Img := ⟨2, 3, 4, fun _ _ _ => 0⟩

/-- A concrete fully transparent 7×7 RGBA image, large enough for the SSIM
window. -/
def C10imgC : Img := ⟨7, 7, 4, fun _ _ _ => 0⟩

/-- A concrete fully transparent 8×9 RGBA image, large enough for the SSIM
window. -/
def C10imgD : Img := ⟨8, 9, 4, fun _ _ _ => 0⟩

/-- A concrete 1×1 gray image for the C7 witness. -/
def C7img : Img := ⟨1, 1, 3, fun _ _ _ => 128⟩

/-! ## Helper lemmas about the aligner -/

theorem cvResize_h (img : Img) (tw th : ℕ) : (cvResize img tw th).h = th := rfl

theorem cvResize_w (img : Img) (tw th : ℕ) : (cvResize img tw th).w = tw := rfl

/-- When the first image's area is at most the second's, the target is the
first image's size: the first image passes through untouched and the second
is resized exactly when its size differs. -/
theorem resize_content_of_le {i1 i2 : Img} (h : i1.h * i1.w ≤ i2.h * i2.w) :
    resize_content_to_same_size i1 i2 =
      (i1, if (i2.w, i2.h) ≠ (i1.w, i1.h) then cvResize i2 i1.w i1.h else i2) := by
  simp only [resize_content_to_same_size, if_pos h]
  simp

/-- When the second image's area is strictly smaller, the target is the
second image's size: the second image passes through untouched and the first
is resized (its size cannot already equal the target, for then the areas
would be equal). -/
theorem resize_content_of_gt {i1 i2 : Img} (h : i2.h * i2.w < i1.h * i1.w) :
    resize_content_to_same_size i1 i2 = (cvResize i1 i2.w i2.h, i2) := by
  have hne : (i1.w, i1.h) ≠ (i2.w, i2.h) := by
    intro hcontra
    rw [Prod.mk.injEq] at hcontra
    rw [hcontra.1, hcontra.2] at h
    exact absurd h (lt_irrefl _)
  simp only [resize_content_to_same_size, if_neg (not_le.mpr h)]
  simp [hne]

/-- Both components of the aligner's output always share the same height and
the same width (the target size). -/
theorem resize_content_same_dims (i1 i2 : Img) :
    (resize_content_to_same_size i1 i2).1.h = (resize_content_to_same_size i1 i2).2.h ∧
    (resize_content_to_same_size i1 i2).1.w = (resize_content_to_same_size i1 i2).2.w := by
  by_cases hle : i1.h * i1.w ≤ i2.h * i2.w
  · rw [resize_content_of_le hle]
    split_ifs with h1
    · exact ⟨rfl, rfl⟩
    · simp only [ne_eq, not_not, Prod.mk.injEq] at h1
      exact ⟨h1.2.symm, h1.1.symm⟩
  · rw [resize_content_of_gt (not_le.mp hle)]
    exact ⟨rfl, rfl⟩

/-! ## C1 -/

/-- C1: for every aligned pair, the composite perceptual similarity returned
by `calculate_aligned_similarity` equals exactly `0.5 * ssim +
0.3 * pixel_similarity + 0.2 * histogram_similarity`. -/
theorem C1_perceptual_similarity_weights (i1 i2 : Img) (a1 a2 : Bool) :
    (calculate_aligned_similarity i1 i2 a1 a2).perceptual_similarity =
      0.5 * ((calculate_aligned_similarity i1 i2 a1 a2).ssim : ℝ)
        + 0.3 * ((calculate_aligned_similarity i1 i2 a1 a2).pixel_similarity : ℝ)
        + 0.2 * (calculate_aligned_similarity i1 i2 a1 a2).histogram_similarity := by
  simp only [calculate_aligned_similarity]
  ring

/-! ## C2 -/

/-- C2: the aligner's output pair has pixel area `min(area i1, area i2)` on
both sides; when the areas differ, the larger-area image is the one resized,
down to exactly the smaller image's width and height, while the smaller-area
image passes through untouched. -/
theorem C2_align_to_min_area (i1 i2 : Img) :
    ((resize_content_to_same_size i1 i2).1.area = min i1.area i2.area ∧
      (resize_content_to_same_size i1 i2).2.area = min i1.area i2.area) ∧
    (i1.area < i2.area →
      (resize_content_to_same_size i1 i2).1 = i1 ∧
      (resize_content_to_same_size i1 i2).2 = cvResize i2 i1.w i1.h ∧
      (resize_content_to_same_size i1 i2).2.w = i1.w ∧
      (resize_content_to_same_size i1 i2).2.h = i1.h) ∧
    (i2.area < i1.area →
      (resize_content_to_same_size i1 i2).2 = i2 ∧
      (resize_content_to_same_size i1 i2).1 = cvResize i1 i2.w i2.h ∧
      (resize_content_to_same_size i1 i2).1.w = i2.w ∧
      (resize_content_to_same_size i1 i2).1.h = i2.h) := by
  simp only [Img.area]
  by_cases hle : i1.h * i1.w ≤ i2.h * i2.w
  · rw [resize_content_of_le hle]
    refine ⟨⟨by simpa [Img.area] using (min_eq_left hle).symm, ?_⟩, ?_, ?_⟩
    · split_ifs with h1
      · simpa [Img.area, cvResize] using (min_eq_left hle).symm
      · simp only [ne_eq, not_not, Prod.mk.injEq] at h1
        simp [Img.area, h1.1, h1.2, min_eq_left hle]
    · intro hlt
      have hne : (i2.w, i2.h) ≠ (i1.w, i1.h) := by
        intro hcontra
        rw [Prod.mk.injEq] at hcontra
        rw [hcontra.1, hcontra.2] at hlt
        exact absurd hlt (lt_irrefl _)
      simp [hne, cvResize]
    · intro hlt
      exact absurd hlt (not_lt.mpr hle)
  · rw [resize_content_of_gt (not_le.mp hle)]
    have hmin : min (i1.h * i1.w) (i2.h * i2.w) = i2.h * i2.w :=
      min_eq_right (le_of_lt (not_le.mp hle))
    refine ⟨⟨by simpa [Img.area, cvResize] using hmin.symm,
      by simpa [Img.area] using hmin.symm⟩, ?_, ?_⟩
    · intro hlt
      exact absurd (lt_trans (not_le.mp hle) hlt) (lt_irrefl _)
    · intro _
      exact ⟨rfl, rfl, rfl, rfl⟩

/-- Witness for C2 at a concrete pair with strictly smaller first area. -/
theorem C2_align_to_min_area_witness :
    (resize_content_to_same_size C2imgSmall C2imgLarge).1 = C2imgSmall ∧
    (resize_content_to_same_size C2imgSmall C2imgLarge).2 = cvResize C2imgLarge 1 1 ∧
    (resize_content_to_same_size C2imgSmall C2imgLarge).1.area = min 1 2 := by
  have h := C2_align_to_min_area C2imgSmall C2imgLarge
  have harea : C2imgSmall.area < C2imgLarge.area := by decide
  exact ⟨(h.2.1 harea).1, (h.2.1 harea).2.1, h.1.1⟩

/-! ## C3 -/

/-- Counterexample to C3: on two content regions of equal area 2 but
different dimensions (1×2 versus 2×1), the aligner does resample — the
second image does not pass through unchanged — and the two outputs share
the same dimensions rather than mismatched ones. -/
theorem C3_counterexample :
    C3imgA.area = C3imgB.area ∧
    ¬(C3imgA.h = C3imgB.h ∧ C3imgA.w = C3imgB.w) ∧
    (resize_content_to_same_size C3imgA C3imgB).2 ≠ C3imgB ∧
    (resize_content_to_same_size C3imgA C3imgB).1.h =
      (resize_content_to_same_size C3imgA C3imgB).2.h ∧
    (resize_content_to_same_size C3imgA C3imgB).1.w =
      (resize_content_to_same_size C3imgA C3imgB).2.w := by
  refine ⟨by decide, by decide, ?_, (resize_content_same_dims _ _).1,
    (resize_content_same_dims _ _).2⟩
  intro hcontra
  exact absurd (congrArg Img.h hcontra) (by decide)

/-- C3 amended: when the two content regions have equal pixel areas but
different dimensions, the aligner leaves the first region untouched and
resamples the second region to the first region's width and height, so the
two images passed on to the metric suite share the same dimensions. -/
theorem C3_amended_equal_area_resizes_second (i1 i2 : Img)
    (harea : i1.area = i2.area) (hdim : ¬(i1.h = i2.h ∧ i1.w = i2.w)) :
    (resize_content_to_same_size i1 i2).1 = i1 ∧
    (resize_content_to_same_size i1 i2).2 = cvResize i2 i1.w i1.h ∧
    (resize_content_to_same_size i1 i2).1.h = (resize_content_to_same_size i1 i2).2.h ∧
    (resize_content_to_same_size i1 i2).1.w = (resize_content_to_same_size i1 i2).2.w := by
  simp only [Img.area] at harea
  rw [resize_content_of_le (le_of_eq harea)]
  have hne : (i2.w, i2.h) ≠ (i1.w, i1.h) := by
    intro hcontra
    rw [Prod.mk.injEq] at hcontra
    exact hdim ⟨hcontra.2.symm, hcontra.1.symm⟩
  simp [hne, cvResize]

/-- Witness for the amended C3 at the concrete 1×2 / 2×1 pair. -/
theorem C3_amended_witness :
    (resize_content_to_same_size C3imgA C3imgB).1 = C3imgA ∧
    (resize_content_to_same_size C3imgA C3imgB).2 = cvResize C3imgB 2 1 := by
  have h := C3_amended_equal_area_resizes_second C3imgA C3imgB (by decide) (by decide)
  exact ⟨h.1, h.2.1⟩

/-! ## C8 -/

/-- When a 4-channel image has no pixel with alpha above the threshold 10,
the visible-coordinate set is empty and `extract_content_bbox` returns the
full image with its transparency flag set. -/
theorem extract_content_bbox_no_visible (img : Img) (hc : img.c = 4)
    (ha : ∀ y < img.h, ∀ x < img.w, img.px y x 3 ≤ 10) :
    extract_content_bbox img = ⟨0, 0, img.w, img.h, img, true⟩ := by
  have hempty : visibleCoords img = ∅ := by
    simp only [visibleCoords, if_pos hc]
    rw [Finset.filter_eq_empty_iff]
    rintro ⟨y, x⟩ hmem
    rw [Finset.mem_product, Finset.mem_range, Finset.mem_range] at hmem
    exact not_lt.mpr (ha y hmem.1 x hmem.2)
  have hnot : ¬ (visibleCoords img).Nonempty := by
    rw [hempty]
    exact Finset.not_nonempty_empty
  simp only [extract_content_bbox, dif_neg hnot]
  simp [hc]

/-- C8: for every (nonempty) image whose transparency channel nowhere exceeds
the threshold 10 — in particular a fully transparent image — the content
isolator returns the full image as the content region with its transparency
flag preserved; and on any nonempty input, visible pixels or not, it returns
a region of width and height at least 1 (it is a total function: no error is
ever raised). -/
theorem C8_transparent_fallback (img : Img) (hh : 1 ≤ img.h) (hw : 1 ≤ img.w) :
    ((img.c = 4 ∧ ∀ y < img.h, ∀ x < img.w, img.px y x 3 ≤ 10) →
      extract_content_bbox img = ⟨0, 0, img.w, img.h, img, true⟩) ∧
    1 ≤ (extract_content_bbox img).content.w ∧
    1 ≤ (extract_content_bbox img).content.h ∧
    1 ≤ (extract_content_bbox img).w ∧
    1 ≤ (extract_content_bbox img).h := by
  refine ⟨fun hca => extract_content_bbox_no_visible img hca.1 hca.2, ?_⟩
  by_cases hne : (visibleCoords img).Nonempty
  · simp only [extract_content_bbox, dif_pos hne]
    exact ⟨Nat.le_add_left 1 _, Nat.le_add_left 1 _, Nat.le_add_left 1 _, Nat.le_add_left 1 _⟩
  · simp only [extract_content_bbox, dif_neg hne]
    exact ⟨hw, hh, hw, hh⟩

/-- Witness for C8 at the concrete fully transparent image. -/
theorem C8_transparent_fallback_witness :
    extract_content_bbox C8img = ⟨0, 0, 2, 2, C8img, true⟩ ∧
    1 ≤ (extract_content_bbox C8img).content.w ∧
    1 ≤ (extract_content_bbox C8img).content.h := by
  have h := C8_transparent_fallback C8img (by decide) (by decide)
  exact ⟨h.1 ⟨rfl, by decide⟩, h.2.1, h.2.2.1⟩

/-! ## C9 -/

/-- C9: `compare_images` fails with a file-not-found error when either path
does not resolve, fails with a cannot-read error when both paths resolve but
either resource cannot be decoded as an image, and a failing call returns no
result dictionary. -/
theorem C9_error_handling (pathExists : String → Bool) (imread : String → Option Img)
    (p1 p2 : String) :
    (pathExists p1 = false ∨ pathExists p2 = false →
      ∃ p, compare_images pathExists imread p1 p2 = .error (.fileNotFound p)) ∧
    (pathExists p1 = true → pathExists p2 = true →
      imread p1 = none ∨ imread p2 = none →
      ∃ p, compare_images pathExists imread p1 p2 = .error (.cannotReadImage p)) ∧
    (∀ e, compare_images pathExists imread p1 p2 = .error e →
      ∀ r, compare_images pathExists imread p1 p2 ≠ .ok r) := by
  refine ⟨?_, ?_, ?_⟩
  · intro h
    by_cases h1 : pathExists p1 = false
    · rw [compare_images, if_pos h1]
      exact ⟨p1, rfl⟩
    · have h2 : pathExists p2 = false := h.resolve_left h1
      rw [compare_images, if_neg h1, if_pos h2]
      exact ⟨p2, rfl⟩
  · intro h1 h2 h
    have h1f : ¬ pathExists p1 = false := by rw [h1]; simp
    have h2f : ¬ pathExists p2 = false := by rw [h2]; simp
    rw [compare_images, if_neg h1f, if_neg h2f]
    rcases h with h | h
    · rw [h]
      exact ⟨p1, rfl⟩
    · rw [h]
      cases himg : imread p1 with
      | none => exact ⟨p1, rfl⟩
      | some i => exact ⟨p2, rfl⟩
  · intro e he r hok
    rw [he] at hok
    exact Except.noConfusion hok

/-- Witness for C9: a filesystem with a single decodable-free path. -/
theorem C9_error_handling_witness :
    (∃ p, compare_images (fun q => q == "a") (fun _ => none) "a" "b"
        = .error (.fileNotFound p)) ∧
    (∃ p, compare_images (fun q => q == "a") (fun _ => none) "a" "a"
        = .error (.cannotReadImage p)) := by
  refine ⟨(C9_error_handling (fun q => q == "a") (fun _ => none) "a" "b").1 ?_,
    (C9_error_handling (fun q => q == "a") (fun _ => none) "a" "a").2.1 ?_ ?_ ?_⟩
  · exact Or.inr (by decide)
  · decide
  · decide
  · exact Or.inl rfl

/-! ## C10 -/

theorem convert_to_white_bg_dims (img : Img) (a : Bool) :
    (convert_to_white_bg img a).h = img.h ∧ (convert_to_white_bg img a).w = img.w := by
  unfold convert_to_white_bg
  split_ifs <;> exact ⟨rfl, rfl⟩

/-- Flattening a 4-channel image whose in-range alpha is identically 0 yields
the uniform white image on the in-range pixels. -/
theorem convert_to_white_bg_white (img : Img) (hc : img.c = 4)
    (ha : ∀ y < img.h, ∀ x < img.w, img.px y x 3 = 0) :
    ∀ y < img.h, ∀ x < img.w, ∀ ch, (convert_to_white_bg img true).px y x ch = 255 := by
  intro y hy x hx ch
  simp only [convert_to_white_bg]
  rw [if_pos (show True ∧ img.c = 4 from ⟨trivial, hc⟩)]
  show (img.px y x ch * img.px y x 3 + 255 * (255 - img.px y x 3)) / 255 = 255
  rw [ha y hy x hx]
  norm_num

/-- The coordinate map of `cvResize` sends in-range output indices to
in-range source indices. -/
theorem map_index_lt {y th s : ℕ} (hy : y < th) (hs : 0 < s) : y * s / th < s := by
  rw [Nat.div_lt_iff_lt_mul (lt_of_le_of_lt (Nat.zero_le _) hy)]
  rw [mul_comm s th]
  exact (Nat.mul_lt_mul_right hs).mpr hy

theorem pos_parts_of_mul_pos {a b : ℕ} (h : 0 < a * b) : 0 < a ∧ 0 < b := by
  refine ⟨Nat.pos_of_ne_zero fun h0 => ?_, Nat.pos_of_ne_zero fun h0 => ?_⟩ <;>
    rw [h0] at h <;> simp at h

/-- If both aligner inputs are in-range white, so are both aligner outputs. -/
theorem resize_content_white {b1 b2 : Img}
    (hw1 : ∀ y < b1.h, ∀ x < b1.w, ∀ ch, b1.px y x ch = 255)
    (hw2 : ∀ y < b2.h, ∀ x < b2.w, ∀ ch, b2.px y x ch = 255) :
    (∀ y < (resize_content_to_same_size b1 b2).1.h,
      ∀ x < (resize_content_to_same_size b1 b2).1.w,
        ∀ ch, (resize_content_to_same_size b1 b2).1.px y x ch = 255) ∧
    (∀ y < (resize_content_to_same_size b1 b2).2.h,
      ∀ x < (resize_content_to_same_size b1 b2).2.w,
        ∀ ch, (resize_content_to_same_size b1 b2).2.px y x ch = 255) := by
  by_cases hle : b1.h * b1.w ≤ b2.h * b2.w
  · rw [resize_content_of_le hle]
    refine ⟨hw1, ?_⟩
    split_ifs with hdiff
    · intro y hy x hx ch
      simp only [cvResize] at hy hx ⊢
      have hpos : 0 < b2.h * b2.w :=
        lt_of_lt_of_le (Nat.mul_pos (lt_of_le_of_lt (Nat.zero_le _) hy)
          (lt_of_le_of_lt (Nat.zero_le _) hx)) hle
      obtain ⟨hh2, hw2'⟩ := pos_parts_of_mul_pos hpos
      exact hw2 _ (map_index_lt hy hh2) _ (map_index_lt hx hw2') ch
    · exact hw2
  · rw [resize_content_of_gt (not_le.mp hle)]
    refine ⟨?_, hw2⟩
    intro y hy x hx ch
    simp only [cvResize] at hy hx ⊢
    have hpos : 0 < b1.h * b1.w :=
      lt_trans (Nat.mul_pos (lt_of_le_of_lt (Nat.zero_le _) hy)
        (lt_of_le_of_lt (Nat.zero_le _) hx)) (not_le.mp hle)
    obtain ⟨hh1, hw1'⟩ := pos_parts_of_mul_pos hpos
    exact hw1 _ (map_index_lt hy hh1) _ (map_index_lt hx hw1') ch

/-- The MSE of two images that agree on all in-range pixels is 0. -/
theorem imgMSE_eq_zero_of_agree {a b : Img}
    (hagree : ∀ y < a.h, ∀ x < a.w, ∀ ch, a.px y x ch = b.px y x ch) :
    imgMSE a b = 0 := by
  unfold imgMSE
  rw [Finset.sum_eq_zero, zero_div]
  intro y hy
  rw [Finset.sum_eq_zero]
  intro x hx
  rw [Finset.sum_eq_zero]
  intro ch _
  rw [Finset.mem_range] at hy hx
  rw [hagree y hy x hx ch, sub_self]
  norm_num

/-- For a pair of fully transparent 4-channel images (all alpha 0), both
flattened images produced by the aligner are uniformly the white backdrop
color (255 on every in-range sample), and the report formulas give
`mse = 0` and `pixelSimilarity = 1`. -/
theorem transparent_pair_white_report (img1 img2 : Img)
    (hc1 : img1.c = 4) (hc2 : img2.c = 4)
    (ha1 : ∀ y < img1.h, ∀ x < img1.w, img1.px y x 3 = 0)
    (ha2 : ∀ y < img2.h, ∀ x < img2.w, img2.px y x 3 = 0) :
    (∀ y < (resize_content_to_same_size (convert_to_white_bg img1 true)
          (convert_to_white_bg img2 true)).1.h,
      ∀ x < (resize_content_to_same_size (convert_to_white_bg img1 true)
          (convert_to_white_bg img2 true)).1.w,
        ∀ ch, (resize_content_to_same_size (convert_to_white_bg img1 true)
          (convert_to_white_bg img2 true)).1.px y x ch = 255) ∧
    (∀ y < (resize_content_to_same_size (convert_to_white_bg img1 true)
          (convert_to_white_bg img2 true)).2.h,
      ∀ x < (resize_content_to_same_size (convert_to_white_bg img1 true)
          (convert_to_white_bg img2 true)).2.w,
        ∀ ch, (resize_content_to_same_size (convert_to_white_bg img1 true)
          (convert_to_white_bg img2 true)).2.px y x ch = 255) ∧
    (compare_decoded img1 img2).MSE = 0 ∧
    (compare_decoded img1 img2).Pixel_Similarity = 1 := by
  have hd1 := convert_to_white_bg_dims img1 true
  have hd2 := convert_to_white_bg_dims img2 true
  have hwb1 : ∀ y < (convert_to_white_bg img1 true).h,
      ∀ x < (convert_to_white_bg img1 true).w,
        ∀ ch, (convert_to_white_bg img1 true).px y x ch = 255 := by
    rw [hd1.1, hd1.2]
    exact convert_to_white_bg_white img1 hc1 ha1
  have hwb2 : ∀ y < (convert_to_white_bg img2 true).h,
      ∀ x < (convert_to_white_bg img2 true).w,
        ∀ ch, (convert_to_white_bg img2 true).px y x ch = 255 := by
    rw [hd2.1, hd2.2]
    exact convert_to_white_bg_white img2 hc2 ha2
  obtain ⟨hA1, hA2⟩ := resize_content_white hwb1 hwb2
  obtain ⟨hdh, hdw⟩ := resize_content_same_dims (convert_to_white_bg img1 true)
    (convert_to_white_bg img2 true)
  have hmse : imgMSE (resize_content_to_same_size (convert_to_white_bg img1 true)
      (convert_to_white_bg img2 true)).1
      (resize_content_to_same_size (convert_to_white_bg img1 true)
        (convert_to_white_bg img2 true)).2 = 0 := by
    apply imgMSE_eq_zero_of_agree
    intro y hy x hx ch
    rw [hA1 y hy x hx ch, hA2 y (hdh ▸ hy) x (hdw ▸ hx) ch]
  have hb1 := extract_content_bbox_no_visible img1 hc1
    (fun y hy x hx => by rw [ha1 y hy x hx]; norm_num)
  have hb2 := extract_content_bbox_no_visible img2 hc2
    (fun y hy x hx => by rw [ha2 y hy x hx]; norm_num)
  refine ⟨hA1, hA2, ?_, ?_⟩
  · show (calculate_aligned_similarity (extract_content_bbox img1).content
      (extract_content_bbox img2).content (extract_content_bbox img1).has_alpha
      (extract_content_bbox img2).has_alpha).mse = 0
    rw [hb1, hb2]
    exact hmse
  · show (calculate_aligned_similarity (extract_content_bbox img1).content
      (extract_content_bbox img2).content (extract_content_bbox img1).has_alpha
      (extract_content_bbox img2).has_alpha).pixel_similarity = 1
    rw [hb1, hb2]
    show 1 - imgMSE (resize_content_to_same_size (convert_to_white_bg img1 true)
        (convert_to_white_bg img2 true)).1
      (resize_content_to_same_size (convert_to_white_bg img1 true)
        (convert_to_white_bg img2 true)).2 / (255 * 255 * 3) = 1
    rw [hmse]
    norm_num

/-- Both outputs of the aligner keep every side at least 7 when both inputs
have every side at least 7 (the target size is one of the two input
sizes). -/
theorem resize_content_not_exceeds {b1 b2 : Img} (h1h : 7 ≤ b1.h) (h1w : 7 ≤ b1.w)
    (h2h : 7 ≤ b2.h) (h2w : 7 ≤ b2.w) :
    ¬ ssim_win_size_exceeds (resize_content_to_same_size b1 b2).1
      (resize_content_to_same_size b1 b2).2 := by
  unfold ssim_win_size_exceeds
  push_neg
  by_cases hle : b1.h * b1.w ≤ b2.h * b2.w
  · rw [resize_content_of_le hle]
    split_ifs
    · exact ⟨h1h, h1w, h1h, h1w⟩
    · exact ⟨h1h, h1w, h2h, h2w⟩
  · rw [resize_content_of_gt (not_le.mp hle)]
    exact ⟨h2h, h2w, h2h, h2w⟩

set_option maxRecDepth 40000 in
/-- Counterexample to C10: the claim promises `mse = 0` and
`pixelSimilarity = 1` for fully transparent pairs "of any dimensions", but
on this fully transparent 1×1 / 2×3 pair the comparison never yields those
values: the aligned pair is 1×1, smaller than the 7×7 SSIM window, so the
comparison raises in the SSIM step and produces no report. -/
theorem C10_counterexample :
    C10imgA.c = 4 ∧ C10imgB.c = 4 ∧
    (∀ y < C10imgA.h, ∀ x < C10imgA.w, C10imgA.px y x 3 = 0) ∧
    (∀ y < C10imgB.h, ∀ x < C10imgB.w, C10imgB.px y x 3 = 0) ∧
    compare_decoded_checked C10imgA C10imgB
      = .error CompareError.winSizeExceedsImageExtent := by
  refine ⟨rfl, rfl, by decide, by decide, ?_⟩
  unfold compare_decoded_checked
  rw [if_pos (by decide)]

/-- C10 amended: for every pair of fully transparent 4-channel images whose
sides are all at least 7 (so the SSIM step does not raise), both flattened
images produced by the aligner are uniformly the white backdrop color, and
the comparison succeeds and reports `mse = 0` and `pixelSimilarity = 1`.
For smaller dimensions the aligner outputs are still uniformly white but
the comparison raises in the SSIM step and yields no report (see the
counterexample). -/
theorem C10_amended_transparent_white (img1 img2 : Img)
    (hc1 : img1.c = 4) (hc2 : img2.c = 4)
    (ha1 : ∀ y < img1.h, ∀ x < img1.w, img1.px y x 3 = 0)
    (ha2 : ∀ y < img2.h, ∀ x < img2.w, img2.px y x 3 = 0)
    (h1h : 7 ≤ img1.h) (h1w : 7 ≤ img1.w) (h2h : 7 ≤ img2.h) (h2w : 7 ≤ img2.w) :
    (∀ y < (resize_content_to_same_size (convert_to_white_bg img1 true)
          (convert_to_white_bg img2 true)).1.h,
      ∀ x < (resize_content_to_same_size (convert_to_white_bg img1 true)
          (convert_to_white_bg img2 true)).1.w,
        ∀ ch, (resize_content_to_same_size (convert_to_white_bg img1 true)
          (convert_to_white_bg img2 true)).1.px y x ch = 255) ∧
    (∀ y < (resize_content_to_same_size (convert_to_white_bg img1 true)
          (convert_to_white_bg img2 true)).2.h,
      ∀ x < (resize_content_to_same_size (convert_to_white_bg img1 true)
          (convert_to_white_bg img2 true)).2.w,
        ∀ ch, (resize_content_to_same_size (convert_to_white_bg img1 true)
          (convert_to_white_bg img2 true)).2.px y x ch = 255) ∧
    compare_decoded_checked img1 img2 = .ok (compare_decoded img1 img2) ∧
    (compare_decoded img1 img2).MSE = 0 ∧
    (compare_decoded img1 img2).Pixel_Similarity = 1 := by
  have hw := transparent_pair_white_report img1 img2 hc1 hc2 ha1 ha2
  refine ⟨hw.1, hw.2.1, ?_, hw.2.2.1, hw.2.2.2⟩
  have hb1 := extract_content_bbox_no_visible img1 hc1
    (fun y hy x hx => by rw [ha1 y hy x hx]; norm_num)
  have hb2 := extract_content_bbox_no_visible img2 hc2
    (fun y hy x hx => by rw [ha2 y hy x hx]; norm_num)
  have hd1 := convert_to_white_bg_dims img1 true
  have hd2 := convert_to_white_bg_dims img2 true
  have hguard : ¬ ssim_win_size_exceeds
      (resize_content_to_same_size
        (convert_to_white_bg (extract_content_bbox img1).content
          (extract_content_bbox img1).has_alpha)
        (convert_to_white_bg (extract_content_bbox img2).content
          (extract_content_bbox img2).has_alpha)).1
      (resize_content_to_same_size
        (convert_to_white_bg (extract_content_bbox img1).content
          (extract_content_bbox img1).has_alpha)
        (convert_to_white_bg (extract_content_bbox img2).content
          (extract_content_bbox img2).has_alpha)).2 := by
    rw [hb1, hb2]
    show ¬ ssim_win_size_exceeds
      (resize_content_to_same_size (convert_to_white_bg img1 true)
        (convert_to_white_bg img2 true)).1
      (resize_content_to_same_size (convert_to_white_bg img1 true)
        (convert_to_white_bg img2 true)).2
    exact resize_content_not_exceeds
      (by rw [hd1.1]; exact h1h) (by rw [hd1.2]; exact h1w)
      (by rw [hd2.1]; exact h2h) (by rw [hd2.2]; exact h2w)
  unfold compare_decoded_checked
  rw [if_neg hguard]

/-- Witness for the amended C10 at two concrete fully transparent images of
different dimensions, both at least 7×7. -/
theorem C10_amended_transparent_white_witness :
    compare_decoded_checked C10imgC C10imgD = .ok (compare_decoded C10imgC C10imgD) ∧
    (compare_decoded C10imgC C10imgD).MSE = 0 ∧
    (compare_decoded C10imgC C10imgD).Pixel_Similarity = 1 := by
  have h := C10_amended_transparent_white C10imgC C10imgD rfl rfl
    (by decide) (by decide) (by decide) (by decide) (by decide) (by decide)
  exact ⟨h.2.2.1, h.2.2.2.1, h.2.2.2.2⟩

/-! ## C6 -/

/-- C6: the reported `mse` is the mean of the squared per-channel, per-pixel
differences over all channels and pixels of the two aligned flattened
3-channel images, and the reported `pixel_similarity` is
`1 - mse / (255² · 3)`. -/
theorem C6_mse_mean_and_pixel_similarity (i1 i2 : Img) (a1 a2 : Bool) :
    (calculate_aligned_similarity i1 i2 a1 a2).mse =
      (∑ y in Finset.range (resize_content_to_same_size (convert_to_white_bg i1 a1)
          (convert_to_white_bg i2 a2)).1.h,
        ∑ x in Finset.range (resize_content_to_same_size (convert_to_white_bg i1 a1)
            (convert_to_white_bg i2 a2)).1.w,
          ∑ ch in Finset.range 3,
            (((resize_content_to_same_size (convert_to_white_bg i1 a1)
                (convert_to_white_bg i2 a2)).1.px y x ch : ℚ)
              - ((resize_content_to_same_size (convert_to_white_bg i1 a1)
                  (convert_to_white_bg i2 a2)).2.px y x ch : ℚ)) ^ 2)
        / ((resize_content_to_same_size (convert_to_white_bg i1 a1)
            (convert_to_white_bg i2 a2)).1.h
          * (resize_content_to_same_size (convert_to_white_bg i1 a1)
              (convert_to_white_bg i2 a2)).1.w * 3) ∧
    (calculate_aligned_similarity i1 i2 a1 a2).pixel_similarity =
      1 - (calculate_aligned_similarity i1 i2 a1 a2).mse / (255 ^ 2 * 3) := by
  constructor
  · rfl
  · show (1 : ℚ) - (calculate_aligned_similarity i1 i2 a1 a2).mse / (255 * 255 * 3)
      = 1 - (calculate_aligned_similarity i1 i2 a1 a2).mse / (255 ^ 2 * 3)
    norm_num

/-! ## Histogram correlation lemmas -/

/-- The histogram correlation never exceeds 1 (Cauchy-Schwarz). -/
theorem compareHistCorrel_le_one (h1 h2 : ℕ → ℝ) : compareHistCorrel h1 h2 ≤ 1 := by
  simp only [compareHistCorrel]
  set m1 := (∑ i in Finset.range 256, h1 i) / 256 with hm1
  set m2 := (∑ i in Finset.range 256, h2 i) / 256 with hm2
  set cov := ∑ i in Finset.range 256, (h1 i - m1) * (h2 i - m2) with hcov
  set s1 := ∑ i in Finset.range 256, (h1 i - m1) ^ 2 with hs1
  set s2 := ∑ i in Finset.range 256, (h2 i - m2) ^ 2 with hs2
  rcases eq_or_lt_of_le (Real.sqrt_nonneg (s1 * s2)) with h0 | hpos
  · rw [← h0, div_zero]
    norm_num
  · rw [div_le_one hpos]
    have hcs : cov ^ 2 ≤ s1 * s2 :=
      Finset.sum_mul_sq_le_sq_mul_sq (Finset.range 256) (fun i => h1 i - m1) (fun i => h2 i - m2)
    calc cov ≤ |cov| := le_abs_self _
      _ = Real.sqrt (cov ^ 2) := (Real.sqrt_sq_eq_abs _).symm
      _ ≤ Real.sqrt (s1 * s2) := Real.sqrt_le_sqrt hcs

/-- Each per-channel histogram similarity lies in `[0, 1]`. -/
theorem channelHistSim_mem (a b : Img) (ch : ℕ) :
    0 ≤ channelHistSim a b ch ∧ channelHistSim a b ch ≤ 1 :=
  ⟨le_max_left 0 _, max_le (by norm_num) (compareHistCorrel_le_one _ _)⟩

/-- The averaged histogram similarity lies in `[0, 1]`. -/
theorem avgHistSimilarity_mem (a b : Img) :
    0 ≤ avgHistSimilarity a b ∧ avgHistSimilarity a b ≤ 1 := by
  obtain ⟨l0, u0⟩ := channelHistSim_mem a b 0
  obtain ⟨l1, u1⟩ := channelHistSim_mem a b 1
  obtain ⟨l2, u2⟩ := channelHistSim_mem a b 2
  unfold avgHistSimilarity
  constructor
  · positivity
  · rw [div_le_one (by norm_num)]
    linarith

/-- The histogram correlation is invariant under positive rescaling of
either histogram (Pearson correlation is scale-free). -/
theorem compareHistCorrel_smul (h1 h2 : ℕ → ℝ) (a b : ℝ) (hc : 0 < a) (hd : 0 < b) :
    compareHistCorrel (fun i => a * h1 i) (fun i => b * h2 i) = compareHistCorrel h1 h2 := by
  simp only [compareHistCorrel]
  set m1 := (∑ i in Finset.range 256, h1 i) / 256 with hm1
  set m2 := (∑ i in Finset.range 256, h2 i) / 256 with hm2
  have hsm1 : (∑ i in Finset.range 256, a * h1 i) / 256 = a * m1 := by
    rw [hm1, ← Finset.mul_sum]
    ring
  have hsm2 : (∑ i in Finset.range 256, b * h2 i) / 256 = b * m2 := by
    rw [hm2, ← Finset.mul_sum]
    ring
  rw [hsm1, hsm2]
  have hcov : ∑ i in Finset.range 256, (a * h1 i - a * m1) * (b * h2 i - b * m2)
      = (a * b) * ∑ i in Finset.range 256, (h1 i - m1) * (h2 i - m2) := by
    rw [Finset.mul_sum]
    exact Finset.sum_congr rfl fun i _ => by ring
  have hv1 : ∑ i in Finset.range 256, (a * h1 i - a * m1) ^ 2
      = a ^ 2 * ∑ i in Finset.range 256, (h1 i - m1) ^ 2 := by
    rw [Finset.mul_sum]
    exact Finset.sum_congr rfl fun i _ => by ring
  have hv2 : ∑ i in Finset.range 256, (b * h2 i - b * m2) ^ 2
      = b ^ 2 * ∑ i in Finset.range 256, (h2 i - m2) ^ 2 := by
    rw [Finset.mul_sum]
    exact Finset.sum_congr rfl fun i _ => by ring
  rw [hcov, hv1, hv2]
  have hsqrt : Real.sqrt (a ^ 2 * (∑ i in Finset.range 256, (h1 i - m1) ^ 2)
      * (b ^ 2 * ∑ i in Finset.range 256, (h2 i - m2) ^ 2))
      = (a * b) * Real.sqrt ((∑ i in Finset.range 256, (h1 i - m1) ^ 2)
          * ∑ i in Finset.range 256, (h2 i - m2) ^ 2) := by
    rw [show a ^ 2 * (∑ i in Finset.range 256, (h1 i - m1) ^ 2)
        * (b ^ 2 * ∑ i in Finset.range 256, (h2 i - m2) ^ 2)
        = (a * b) ^ 2 * ((∑ i in Finset.range 256, (h1 i - m1) ^ 2)
          * ∑ i in Finset.range 256, (h2 i - m2) ^ 2) by ring]
    rw [Real.sqrt_mul (sq_nonneg _), Real.sqrt_sq (le_of_lt (mul_pos hc hd))]
  rw [hsqrt, mul_div_mul_left _ _ (ne_of_gt (mul_pos hc hd))]

/-! ## C7 -/

/-- The 256 histogram bins of a valid image partition its pixel grid, so the
bin counts sum to the pixel count. -/
theorem calcHist_total (a : Img) (ch : ℕ) (ha : a.Valid) :
    ∑ i in Finset.range 256, calcHist a ch i = ((a.h * a.w : ℕ) : ℚ) := by
  have hnat : ∑ i in Finset.range 256,
      ((Finset.range a.h ×ˢ Finset.range a.w).filter
        (fun p => a.px p.1 p.2 ch = i)).card = a.h * a.w := by
    rw [← @Finset.card_eq_sum_card_fiberwise (ℕ × ℕ) ℕ _
      (fun p => a.px p.1 p.2 ch) (Finset.range a.h ×ˢ Finset.range a.w)
      (Finset.range 256)
      (fun p _ => Finset.mem_range.mpr (Nat.lt_succ_of_le (ha p.1 p.2 ch)))]
    rw [Finset.card_product, Finset.card_range, Finset.card_range]
  unfold calcHist
  rw [← Nat.cast_sum]
  exact_mod_cast congrArg (fun n : ℕ => (n : ℚ)) hnat

/-- A nonempty valid image has a positive histogram mass on every channel. -/
theorem calcHist_sum_pos (a : Img) (ch : ℕ) (ha : a.Valid) (hpos : 0 < a.h * a.w) :
    0 < ∑ j in Finset.range 256, ((calcHist a ch j : ℝ)) := by
  have h := calcHist_total a ch ha
  have hr : ∑ j in Finset.range 256, ((calcHist a ch j : ℝ)) = ((a.h * a.w : ℕ) : ℝ) := by
    have := congrArg (fun q : ℚ => (q : ℝ)) h
    push_cast at this ⊢
    exact this
  rw [hr]
  exact_mod_cast hpos

/-- A nonempty valid image has positive squared histogram mass on every
channel. -/
theorem calcHist_sum_sq_pos (a : Img) (ch : ℕ) (ha : a.Valid) (hpos : 0 < a.h * a.w) :
    0 < ∑ j in Finset.range 256, ((calcHist a ch j : ℝ)) ^ 2 := by
  rcases lt_or_eq_of_le (Finset.sum_nonneg
    (fun j _ => sq_nonneg ((calcHist a ch j : ℝ)))) with h | h
  · exact h
  · exfalso
    have hz : ∀ j ∈ Finset.range 256, ((calcHist a ch j : ℝ)) ^ 2 = 0 :=
      (Finset.sum_eq_zero_iff_of_nonneg (fun j _ => sq_nonneg _)).mp h.symm
    have hz' : ∀ j ∈ Finset.range 256, ((calcHist a ch j : ℝ)) = 0 := by
      intro j hj
      have hsq := hz j hj
      nlinarith [hsq, sq_nonneg ((calcHist a ch j : ℝ))]
    have hsum := calcHist_sum_pos a ch ha hpos
    rw [Finset.sum_eq_zero hz'] at hsum
    exact absurd hsum (lt_irrefl 0)

/-- L2 normalization does not change the histogram correlation. -/
theorem compareHistCorrel_cvNormalizeL2 (f g : ℕ → ℝ)
    (hf : 0 < ∑ j in Finset.range 256, f j ^ 2)
    (hg : 0 < ∑ j in Finset.range 256, g j ^ 2) :
    compareHistCorrel (cvNormalizeL2 f) (cvNormalizeL2 g) = compareHistCorrel f g := by
  have h1 : cvNormalizeL2 f
      = fun i => (Real.sqrt (∑ j in Finset.range 256, f j ^ 2))⁻¹ * f i := by
    funext i
    rw [cvNormalizeL2, div_eq_inv_mul]
  have h2 : cvNormalizeL2 g
      = fun i => (Real.sqrt (∑ j in Finset.range 256, g j ^ 2))⁻¹ * g i := by
    funext i
    rw [cvNormalizeL2, div_eq_inv_mul]
  rw [h1, h2]
  exact compareHistCorrel_smul f g _ _
    (inv_pos.mpr (Real.sqrt_pos.mpr hf)) (inv_pos.mpr (Real.sqrt_pos.mpr hg))

/-- Sum-to-one normalization does not change the histogram correlation
either. -/
theorem compareHistCorrel_normalizeSumToOne (f g : ℕ → ℝ)
    (hf : 0 < ∑ j in Finset.range 256, f j)
    (hg : 0 < ∑ j in Finset.range 256, g j) :
    compareHistCorrel (normalizeSumToOne f) (normalizeSumToOne g)
      = compareHistCorrel f g := by
  have h1 : normalizeSumToOne f = fun i => (∑ j in Finset.range 256, f j)⁻¹ * f i := by
    funext i
    rw [normalizeSumToOne, div_eq_inv_mul]
  have h2 : normalizeSumToOne g = fun i => (∑ j in Finset.range 256, g j)⁻¹ * g i := by
    funext i
    rw [normalizeSumToOne, div_eq_inv_mul]
  rw [h1, h2]
  exact compareHistCorrel_smul f g _ _ (inv_pos.mpr hf) (inv_pos.mpr hg)

/-- C7: for every aligned pair of valid nonempty images, the engine's
histogram similarity (L2-normalized histograms fed to the correlation
comparison) equals the spec's description: the average over the 3 channels
of `max(0, c)` with `c` the Pearson correlation of the two sum-to-one
normalized 256-bin histograms.  Both normalizations are erased by the
scale-invariance of Pearson correlation. -/
theorem C7_histogram_similarity_matches_spec (a b : Img)
    (ha : a.Valid) (hb : b.Valid) (hna : 0 < a.h * a.w) (hnb : 0 < b.h * b.w) :
    avgHistSimilarity a b = histogramSimilaritySpec a b := by
  have hch : ∀ ch, channelHistSim a b ch = channelHistSimSpec a b ch := by
    intro ch
    unfold channelHistSim channelHistSimSpec
    rw [compareHistCorrel_cvNormalizeL2 _ _
      (calcHist_sum_sq_pos a ch ha hna) (calcHist_sum_sq_pos b ch hb hnb)]
    rw [compareHistCorrel_normalizeSumToOne _ _
      (calcHist_sum_pos a ch ha hna) (calcHist_sum_pos b ch hb hnb)]
  unfold avgHistSimilarity histogramSimilaritySpec
  rw [hch 0, hch 1, hch 2]

/-- Witness for C7 at a concrete valid nonempty image pair. -/
theorem C7_histogram_similarity_matches_spec_witness :
    avgHistSimilarity C7img C7img = histogramSimilaritySpec C7img C7img :=
  C7_histogram_similarity_matches_spec C7img C7img
    (fun _ _ _ => by simp [C7img]) (fun _ _ _ => by simp [C7img])
    (by decide) (by decide)

/-! ## Bounds on the SSIM model -/

/-- Expansion of a centered cross-sum: the discrete covariance identity. -/
theorem centered_sum_eq {ι : Type*} (S : Finset ι) (p q : ι → ℚ) :
    ∑ i in S, ((S.card : ℚ) * p i - ∑ j in S, p j) * ((S.card : ℚ) * q i - ∑ j in S, q j)
      = (S.card : ℚ) * ((S.card : ℚ) * (∑ i in S, p i * q i)
          - (∑ i in S, p i) * (∑ i in S, q i)) := by
  set n := (S.card : ℚ) with hn
  set B := ∑ j in S, p j with hB
  set C := ∑ j in S, q j with hC
  have hpt : ∀ i ∈ S, (n * p i - B) * (n * q i - C)
      = n ^ 2 * (p i * q i) - (n * C) * p i - (n * B) * q i + B * C :=
    fun i _ => by ring
  rw [Finset.sum_congr rfl hpt, Finset.sum_add_distrib, Finset.sum_sub_distrib,
    Finset.sum_sub_distrib, ← Finset.mul_sum, ← Finset.mul_sum, ← Finset.mul_sum,
    Finset.sum_const, nsmul_eq_mul, ← hn, ← hB, ← hC]
  ring

/-- Cauchy-Schwarz for the scaled covariance and variances. -/
theorem cov_sq_le {ι : Type*} (S : Finset ι) (p q : ι → ℚ) :
    ((S.card : ℚ) * (∑ i in S, p i * q i) - (∑ i in S, p i) * (∑ i in S, q i)) ^ 2
      ≤ ((S.card : ℚ) * (∑ i in S, p i ^ 2) - (∑ i in S, p i) ^ 2)
        * ((S.card : ℚ) * (∑ i in S, q i ^ 2) - (∑ i in S, q i) ^ 2) := by
  rcases eq_or_ne S.card 0 with h0 | h0
  · rw [Finset.card_eq_zero] at h0
    subst h0
    simp
  · have hcs := Finset.sum_mul_sq_le_sq_mul_sq S
      (fun i => (S.card : ℚ) * p i - ∑ j in S, p j)
      (fun i => (S.card : ℚ) * q i - ∑ j in S, q j)
    have h2 : ∑ i in S, ((S.card : ℚ) * p i - ∑ j in S, p j) ^ 2
        = (S.card : ℚ) * ((S.card : ℚ) * (∑ i in S, p i ^ 2)
            - (∑ i in S, p i) * (∑ i in S, p i)) := by
      rw [show ∑ i in S, ((S.card : ℚ) * p i - ∑ j in S, p j) ^ 2
          = ∑ i in S, ((S.card : ℚ) * p i - ∑ j in S, p j)
            * ((S.card : ℚ) * p i - ∑ j in S, p j) from
        Finset.sum_congr rfl (fun i _ => by ring)]
      rw [centered_sum_eq S p p]
      rw [show ∑ i in S, p i * p i = ∑ i in S, p i ^ 2 from
        Finset.sum_congr rfl (fun i _ => by ring)]
    have h3 : ∑ i in S, ((S.card : ℚ) * q i - ∑ j in S, q j) ^ 2
        = (S.card : ℚ) * ((S.card : ℚ) * (∑ i in S, q i ^ 2)
            - (∑ i in S, q i) * (∑ i in S, q i)) := by
      rw [show ∑ i in S, ((S.card : ℚ) * q i - ∑ j in S, q j) ^ 2
          = ∑ i in S, ((S.card : ℚ) * q i - ∑ j in S, q j)
            * ((S.card : ℚ) * q i - ∑ j in S, q j) from
        Finset.sum_congr rfl (fun i _ => by ring)]
      rw [centered_sum_eq S q q]
      rw [show ∑ i in S, q i * q i = ∑ i in S, q i ^ 2 from
        Finset.sum_congr rfl (fun i _ => by ring)]
    rw [centered_sum_eq S p q, h2, h3] at hcs
    set n := (S.card : ℚ) with hn
    set A := ∑ i in S, p i * q i with hA
    set B := ∑ i in S, p i with hB
    set C := ∑ i in S, q i with hC
    set D := ∑ i in S, p i ^ 2 with hD
    set E := ∑ i in S, q i ^ 2 with hE
    have e1 : (n * (n * A - B * C)) ^ 2 = n ^ 2 * (n * A - B * C) ^ 2 := by ring
    have e2 : (n * (n * D - B * B)) * (n * (n * E - C * C))
        = n ^ 2 * ((n * D - B ^ 2) * (n * E - C ^ 2)) := by ring
    rw [e1, e2] at hcs
    have hnpos : (0 : ℚ) < n := Nat.cast_pos.mpr (Nat.pos_of_ne_zero h0)
    exact le_of_mul_le_mul_left hcs (by positivity)

/-- Cauchy-Schwarz against the constant function: the variance of a sum is
nonnegative. -/
theorem sum_sq_le_card_mul_sum_sq {ι : Type*} (S : Finset ι) (p : ι → ℚ) :
    (∑ i in S, p i) ^ 2 ≤ (S.card : ℚ) * ∑ i in S, p i ^ 2 := by
  have hcs := Finset.sum_mul_sq_le_sq_mul_sq S p (fun _ => (1 : ℚ))
  simp only [mul_one, one_pow, Finset.sum_const, nsmul_eq_mul] at hcs
  linarith [hcs]

/-- `winMean` as a single sum over the 7×7 index square. -/
theorem winMean_eq (f : ℕ → ℕ → ℚ) (ty tx : ℕ) :
    winMean f ty tx
      = (∑ d in Finset.range 7 ×ˢ Finset.range 7, f (ty + d.1) (tx + d.2)) / 49 := by
  rw [winMean, Finset.sum_product]

theorem winMean_nonneg (f : ℕ → ℕ → ℚ) (h : ∀ y x, 0 ≤ f y x) (ty tx : ℕ) :
    0 ≤ winMean f ty tx := by
  rw [winMean]
  exact div_nonneg (Finset.sum_nonneg fun dy _ =>
    Finset.sum_nonneg fun dx _ => h _ _) (by norm_num)

theorem card_window : ((Finset.range 7 ×ˢ Finset.range 7).card : ℚ) = 49 := by
  norm_num [Finset.card_product]

/-- The windowed second moment dominates the squared windowed mean. -/
theorem winMean_sq_le (f : ℕ → ℕ → ℚ) (ty tx : ℕ) :
    (winMean f ty tx) ^ 2 ≤ winMean (fun y x => f y x ^ 2) ty tx := by
  rw [winMean_eq, winMean_eq, div_pow, div_le_div_iff (by norm_num) (by norm_num)]
  have h := sum_sq_le_card_mul_sum_sq (Finset.range 7 ×ˢ Finset.range 7)
    (fun d => f (ty + d.1) (tx + d.2))
  rw [card_window] at h
  nlinarith [h]

/-- The windowed covariance is dominated by the product of the windowed
variances. -/
theorem winMean_cov_sq_le (p q : ℕ → ℕ → ℚ) (ty tx : ℕ) :
    (winMean (fun y x => p y x * q y x) ty tx - winMean p ty tx * winMean q ty tx) ^ 2
      ≤ (winMean (fun y x => p y x ^ 2) ty tx - winMean p ty tx ^ 2)
        * (winMean (fun y x => q y x ^ 2) ty tx - winMean q ty tx ^ 2) := by
  rw [winMean_eq (fun y x => p y x * q y x), winMean_eq p, winMean_eq q,
    winMean_eq (fun y x => p y x ^ 2), winMean_eq (fun y x => q y x ^ 2)]
  have hc := cov_sq_le (Finset.range 7 ×ˢ Finset.range 7)
    (fun d => p (ty + d.1) (tx + d.2)) (fun d => q (ty + d.1) (tx + d.2))
  rw [card_window] at hc
  set A := ∑ d in Finset.range 7 ×ˢ Finset.range 7, p (ty + d.1) (tx + d.2) * q (ty + d.1) (tx + d.2) with hA
  set B := ∑ d in Finset.range 7 ×ˢ Finset.range 7, p (ty + d.1) (tx + d.2) with hB
  set C := ∑ d in Finset.range 7 ×ˢ Finset.range 7, q (ty + d.1) (tx + d.2) with hC
  set D := ∑ d in Finset.range 7 ×ˢ Finset.range 7, p (ty + d.1) (tx + d.2) ^ 2 with hD
  set E := ∑ d in Finset.range 7 ×ˢ Finset.range 7, q (ty + d.1) (tx + d.2) ^ 2 with hE
  have e1 : A / 49 - B / 49 * (C / 49) = (49 * A - B * C) / 2401 := by ring
  have e2 : D / 49 - (B / 49) ^ 2 = (49 * D - B ^ 2) / 2401 := by ring
  have e3 : E / 49 - (C / 49) ^ 2 = (49 * E - C ^ 2) / 2401 := by ring
  rw [e1, e2, e3, div_pow, div_mul_div_comm]
  rw [show ((2401 : ℚ) * 2401) = 2401 ^ 2 by norm_num]
  exact (div_le_div_right (by norm_num)).mpr hc

/-- The generic SSIM-ratio bound: with nonnegative means, nonnegative
variances, a covariance dominated by the variances, and positive
stabilization constants, the SSIM expression lies in `[-1, 1]`. -/
theorem ssim_ratio_abs_le_one {ux uy vx vy vxy c1 c2 : ℚ} (hux : 0 ≤ ux) (huy : 0 ≤ uy)
    (hvx : 0 ≤ vx) (hvy : 0 ≤ vy) (hcs : vxy ^ 2 ≤ vx * vy) (hc1 : 0 < c1) (hc2 : 0 < c2) :
    |((2 * ux * uy + c1) * (2 * vxy + c2)) / ((ux ^ 2 + uy ^ 2 + c1) * (vx + vy + c2))| ≤ 1 := by
  have hB1 : 0 < ux ^ 2 + uy ^ 2 + c1 := by positivity
  have hB2 : 0 < vx + vy + c2 := by positivity
  have hA1 : 0 ≤ 2 * ux * uy + c1 := by positivity
  have hA1le : 2 * ux * uy + c1 ≤ ux ^ 2 + uy ^ 2 + c1 := by nlinarith [sq_nonneg (ux - uy)]
  have h2v : 2 * vxy ≤ vx + vy := by nlinarith [sq_nonneg (vx - vy), hcs]
  have h2v' : -(vx + vy) ≤ 2 * vxy := by nlinarith [sq_nonneg (vx - vy), hcs]
  have hA2 : |2 * vxy + c2| ≤ vx + vy + c2 := by
    rw [abs_le]
    constructor <;> linarith
  rw [abs_div, abs_of_pos (mul_pos hB1 hB2), div_le_one (mul_pos hB1 hB2), abs_mul]
  calc |2 * ux * uy + c1| * |2 * vxy + c2|
      = (2 * ux * uy + c1) * |2 * vxy + c2| := by rw [abs_of_nonneg hA1]
    _ ≤ (ux ^ 2 + uy ^ 2 + c1) * (vx + vy + c2) :=
        mul_le_mul hA1le hA2 (abs_nonneg _) (le_of_lt hB1)

/-- Every entry of the SSIM map lies in `[-1, 1]`. -/
theorem ssimWindow_abs_le_one (g1 g2 : Img) (ty tx : ℕ) :
    |ssimWindow g1 g2 ty tx| ≤ 1 := by
  simp only [ssimWindow]
  apply ssim_ratio_abs_le_one
  · exact winMean_nonneg _ (fun y x => by positivity) ty tx
  · exact winMean_nonneg _ (fun y x => by positivity) ty tx
  · nlinarith [winMean_sq_le (fun y x => (g1.px y x 0 : ℚ)) ty tx]
  · nlinarith [winMean_sq_le (fun y x => (g2.px y x 0 : ℚ)) ty tx]
  · nlinarith [winMean_cov_sq_le (fun y x => (g1.px y x 0 : ℚ))
      (fun y x => (g2.px y x 0 : ℚ)) ty tx]
  · norm_num
  · norm_num

/-- The SSIM score, a mean of SSIM-map entries, lies in `[-1, 1]`. -/
theorem structural_similarity_abs_le_one (g1 g2 : Img) :
    |structural_similarity g1 g2| ≤ 1 := by
  unfold structural_similarity
  rcases Nat.eq_zero_or_pos ((g1.h - 6) * (g1.w - 6)) with h0 | hpos
  · rcases Nat.mul_eq_zero.mp h0 with hh | hw
    · rw [hh]
      simp
    · rw [hw]
      simp
  · obtain ⟨hp1, hp2⟩ := pos_parts_of_mul_pos hpos
    have h6 : 6 ≤ g1.h := by omega
    have w6 : 6 ≤ g1.w := by omega
    have e1 : ((g1.h - 6 : ℕ) : ℚ) = (g1.h : ℚ) - 6 := by
      push_cast [h6]
      ring
    have e2 : ((g1.w - 6 : ℕ) : ℚ) = (g1.w : ℚ) - 6 := by
      push_cast [w6]
      ring
    rw [← e1, ← e2]
    have hden : (0 : ℚ) < ((g1.h - 6 : ℕ) : ℚ) * ((g1.w - 6 : ℕ) : ℚ) := by
      have c1 : (0 : ℚ) < ((g1.h - 6 : ℕ) : ℚ) := by exact_mod_cast hp1
      have c2 : (0 : ℚ) < ((g1.w - 6 : ℕ) : ℚ) := by exact_mod_cast hp2
      exact mul_pos c1 c2
    rw [abs_div, abs_of_pos hden, div_le_one hden]
    have hrow : ∀ ty ∈ Finset.range (g1.h - 6),
        |∑ tx in Finset.range (g1.w - 6), ssimWindow g1 g2 ty tx|
          ≤ ((g1.w - 6 : ℕ) : ℚ) := by
      intro ty _
      calc |∑ tx in Finset.range (g1.w - 6), ssimWindow g1 g2 ty tx|
          ≤ ∑ tx in Finset.range (g1.w - 6), |ssimWindow g1 g2 ty tx| :=
            Finset.abs_sum_le_sum_abs _ _
        _ ≤ ∑ _tx in Finset.range (g1.w - 6), (1 : ℚ) :=
            Finset.sum_le_sum (fun tx _ => ssimWindow_abs_le_one g1 g2 ty tx)
        _ = ((g1.w - 6 : ℕ) : ℚ) := by
            rw [Finset.sum_const, Finset.card_range, nsmul_eq_mul, mul_one]
    calc |∑ ty in Finset.range (g1.h - 6), ∑ tx in Finset.range (g1.w - 6),
          ssimWindow g1 g2 ty tx|
        ≤ ∑ ty in Finset.range (g1.h - 6),
            |∑ tx in Finset.range (g1.w - 6), ssimWindow g1 g2 ty tx| :=
          Finset.abs_sum_le_sum_abs _ _
      _ ≤ ∑ _ty in Finset.range (g1.h - 6), ((g1.w - 6 : ℕ) : ℚ) :=
          Finset.sum_le_sum hrow
      _ = ((g1.h - 6 : ℕ) : ℚ) * ((g1.w - 6 : ℕ) : ℚ) := by
          rw [Finset.sum_const, Finset.card_range, nsmul_eq_mul]

/-! ## Validity propagation and MSE bounds -/

theorem cvResize_valid {img : Img} (tw th : ℕ) (h : img.Valid) :
    (cvResize img tw th).Valid :=
  fun _ _ _ => h _ _ _

theorem convert_to_white_bg_valid {img : Img} (a : Bool) (h : img.Valid) :
    (convert_to_white_bg img a).Valid := by
  unfold convert_to_white_bg
  split_ifs with h1 h2
  · intro y x ch
    show (img.px y x ch * img.px y x 3 + 255 * (255 - img.px y x 3)) / 255 ≤ 255
    have hv := h y x ch
    have hnum : img.px y x ch * img.px y x 3 + 255 * (255 - img.px y x 3)
        ≤ 255 * 255 := by
      have hm : img.px y x ch * img.px y x 3 ≤ 255 * img.px y x 3 :=
        Nat.mul_le_mul_right _ hv
      have ha := h y x 3
      have hsplit : 255 * img.px y x 3 + 255 * (255 - img.px y x 3) = 255 * 255 := by
        rw [← Nat.mul_add]
        congr 1
        omega
      omega
    calc (img.px y x ch * img.px y x 3 + 255 * (255 - img.px y x 3)) / 255
        ≤ (255 * 255) / 255 := Nat.div_le_div_right hnum
      _ = 255 := by norm_num
  · exact h
  · exact h

theorem resize_content_valid {b1 b2 : Img} (h1 : b1.Valid) (h2 : b2.Valid) :
    (resize_content_to_same_size b1 b2).1.Valid ∧
    (resize_content_to_same_size b1 b2).2.Valid := by
  by_cases hle : b1.h * b1.w ≤ b2.h * b2.w
  · rw [resize_content_of_le hle]
    refine ⟨h1, ?_⟩
    split_ifs
    · exact cvResize_valid _ _ h2
    · exact h2
  · rw [resize_content_of_gt (not_le.mp hle)]
    exact ⟨cvResize_valid _ _ h1, h2⟩

theorem imgMSE_nonneg (a b : Img) : 0 ≤ imgMSE a b := by
  unfold imgMSE
  apply div_nonneg
  · exact Finset.sum_nonneg fun y _ => Finset.sum_nonneg fun x _ =>
      Finset.sum_nonneg fun ch _ => sq_nonneg _
  · positivity

/-- For valid 8-bit inputs the MSE never exceeds `255²` (each squared
difference is at most `255²`). -/
theorem imgMSE_le_max {a b : Img} (ha : a.Valid) (hb : b.Valid) :
    imgMSE a b ≤ 255 ^ 2 := by
  unfold imgMSE
  rcases Nat.eq_zero_or_pos (a.h * a.w) with h0 | hpos
  · rcases Nat.mul_eq_zero.mp h0 with hh | hw
    · rw [hh]
      norm_num
    · rw [hw]
      norm_num
  · have hbound : ∀ y x ch, ((a.px y x ch : ℚ) - (b.px y x ch : ℚ)) ^ 2 ≤ 255 ^ 2 := by
      intro y x ch
      have h1 : (a.px y x ch : ℚ) ≤ 255 := by exact_mod_cast ha y x ch
      have h2 : (0 : ℚ) ≤ (a.px y x ch : ℚ) := by positivity
      have h3 : (b.px y x ch : ℚ) ≤ 255 := by exact_mod_cast hb y x ch
      have h4 : (0 : ℚ) ≤ (b.px y x ch : ℚ) := by positivity
      nlinarith
    have h3sum : ∀ y ∈ Finset.range a.h, ∀ x ∈ Finset.range a.w,
        (∑ ch in Finset.range 3, ((a.px y x ch : ℚ) - (b.px y x ch : ℚ)) ^ 2)
          ≤ 3 * 255 ^ 2 := by
      intro y _ x _
      calc ∑ ch in Finset.range 3, ((a.px y x ch : ℚ) - (b.px y x ch : ℚ)) ^ 2
          ≤ ∑ _ch in Finset.range 3, (255 : ℚ) ^ 2 :=
            Finset.sum_le_sum fun ch _ => hbound y x ch
        _ = 3 * 255 ^ 2 := by
            rw [Finset.sum_const, Finset.card_range, nsmul_eq_mul]
            norm_num
    have h2sum : ∀ y ∈ Finset.range a.h,
        (∑ x in Finset.range a.w, ∑ ch in Finset.range 3,
          ((a.px y x ch : ℚ) - (b.px y x ch : ℚ)) ^ 2)
          ≤ (a.w : ℚ) * (3 * 255 ^ 2) := by
      intro y hy
      calc ∑ x in Finset.range a.w, ∑ ch in Finset.range 3,
            ((a.px y x ch : ℚ) - (b.px y x ch : ℚ)) ^ 2
          ≤ ∑ _x in Finset.range a.w, (3 * (255 : ℚ) ^ 2) :=
            Finset.sum_le_sum fun x hx => h3sum y hy x hx
        _ = (a.w : ℚ) * (3 * 255 ^ 2) := by
            rw [Finset.sum_const, Finset.card_range, nsmul_eq_mul]
    have h1sum : (∑ y in Finset.range a.h, ∑ x in Finset.range a.w,
        ∑ ch in Finset.range 3, ((a.px y x ch : ℚ) - (b.px y x ch : ℚ)) ^ 2)
          ≤ (a.h : ℚ) * ((a.w : ℚ) * (3 * 255 ^ 2)) := by
      calc ∑ y in Finset.range a.h, ∑ x in Finset.range a.w,
            ∑ ch in Finset.range 3, ((a.px y x ch : ℚ) - (b.px y x ch : ℚ)) ^ 2
          ≤ ∑ _y in Finset.range a.h, ((a.w : ℚ) * (3 * 255 ^ 2)) :=
            Finset.sum_le_sum h2sum
        _ = (a.h : ℚ) * ((a.w : ℚ) * (3 * 255 ^ 2)) := by
            rw [Finset.sum_const, Finset.card_range, nsmul_eq_mul]
    have hD : (0 : ℚ) < (a.h : ℚ) * (a.w : ℚ) * 3 := by
      obtain ⟨hph, hpw⟩ := pos_parts_of_mul_pos hpos
      have c1 : (0 : ℚ) < (a.h : ℚ) := by exact_mod_cast hph
      have c2 : (0 : ℚ) < (a.w : ℚ) := by exact_mod_cast hpw
      positivity
    rw [div_le_iff hD]
    calc ∑ y in Finset.range a.h, ∑ x in Finset.range a.w,
          ∑ ch in Finset.range 3, ((a.px y x ch : ℚ) - (b.px y x ch : ℚ)) ^ 2
        ≤ (a.h : ℚ) * ((a.w : ℚ) * (3 * 255 ^ 2)) := h1sum
      _ = 255 ^ 2 * ((a.h : ℚ) * (a.w : ℚ) * 3) := by ring

/-! ## C5 -/

set_option maxHeartbeats 2000000 in
/-- Counterexample to C5: on the 7×7 inverted-stripe pair, a valid 8-bit
opaque input pair, the composite perceptual similarity is negative, outside
the claimed range `[0, 1]` (the SSIM term is about `-0.957`, the pixel
similarity `2/3`, the histogram similarity at most 1, so the composite is
at most about `-0.078`). -/
theorem C5_counterexample :
    (calculate_aligned_similarity C5imgA C5imgB false false).perceptual_similarity < 0 := by
  have hs : (calculate_aligned_similarity C5imgA C5imgB false false).ssim < -9 / 10 := by
    show structural_similarity
      (cvtColorBGR2GRAY (resize_content_to_same_size (convert_to_white_bg C5imgA false)
        (convert_to_white_bg C5imgB false)).1)
      (cvtColorBGR2GRAY (resize_content_to_same_size (convert_to_white_bg C5imgA false)
        (convert_to_white_bg C5imgB false)).2) < -9 / 10
    norm_num [structural_similarity, ssimWindow, winMean, cvtColorBGR2GRAY,
      resize_content_to_same_size, convert_to_white_bg, cvResize, C5imgA, C5imgB,
      Finset.sum_range_succ]
  have hp : (calculate_aligned_similarity C5imgA C5imgB false false).pixel_similarity
      = 2 / 3 := by
    show 1 - imgMSE (resize_content_to_same_size (convert_to_white_bg C5imgA false)
        (convert_to_white_bg C5imgB false)).1
      (resize_content_to_same_size (convert_to_white_bg C5imgA false)
        (convert_to_white_bg C5imgB false)).2 / (255 * 255 * 3) = 2 / 3
    norm_num [imgMSE, resize_content_to_same_size, convert_to_white_bg, C5imgA, C5imgB,
      Finset.sum_range_succ]
  have hh : (calculate_aligned_similarity C5imgA C5imgB false false).histogram_similarity
      ≤ 1 := by
    show avgHistSimilarity (resize_content_to_same_size (convert_to_white_bg C5imgA false)
        (convert_to_white_bg C5imgB false)).1
      (resize_content_to_same_size (convert_to_white_bg C5imgA false)
        (convert_to_white_bg C5imgB false)).2 ≤ 1
    exact (avgHistSimilarity_mem _ _).2
  have heq : (calculate_aligned_similarity C5imgA C5imgB false false).perceptual_similarity
      = ((calculate_aligned_similarity C5imgA C5imgB false false).ssim : ℝ) * 0.5
        + ((calculate_aligned_similarity C5imgA C5imgB false false).pixel_similarity : ℝ) * 0.3
        + (calculate_aligned_similarity C5imgA C5imgB false false).histogram_similarity * 0.2 :=
    rfl
  have hsR : ((calculate_aligned_similarity C5imgA C5imgB false false).ssim : ℝ)
      < -9 / 10 := by exact_mod_cast hs
  rw [heq, hp]
  push_cast
  linarith

/-- C5 amended: for every pair of valid 8-bit input images, the returned
`pixelSimilarity` lies in `[0, 1]` and the returned `histogramSimilarity`
lies in `[0, 1]`, but the returned `perceptualSimilarity` only lies in the
wider interval `[-0.3, 1]`: it can be negative, because the SSIM term lies
in `[-1, 1]` and enters with weight 0.5 against a pixel term of at least
`2/3 · 0.3` and a histogram term of at least 0. -/
theorem C5_amended_ranges (i1 i2 : Img) (hv1 : i1.Valid) (hv2 : i2.Valid) (a1 a2 : Bool) :
    (0 ≤ (calculate_aligned_similarity i1 i2 a1 a2).pixel_similarity ∧
      (calculate_aligned_similarity i1 i2 a1 a2).pixel_similarity ≤ 1) ∧
    (0 ≤ (calculate_aligned_similarity i1 i2 a1 a2).histogram_similarity ∧
      (calculate_aligned_similarity i1 i2 a1 a2).histogram_similarity ≤ 1) ∧
    (-(3 / 10 : ℝ) ≤ (calculate_aligned_similarity i1 i2 a1 a2).perceptual_similarity ∧
      (calculate_aligned_similarity i1 i2 a1 a2).perceptual_similarity ≤ 1) := by
  obtain ⟨hA1v, hA2v⟩ := resize_content_valid
    (convert_to_white_bg_valid a1 hv1) (convert_to_white_bg_valid a2 hv2)
  have hm0 := imgMSE_nonneg
    (resize_content_to_same_size (convert_to_white_bg i1 a1) (convert_to_white_bg i2 a2)).1
    (resize_content_to_same_size (convert_to_white_bg i1 a1) (convert_to_white_bg i2 a2)).2
  have hmle := imgMSE_le_max hA1v hA2v
  have hpix_eq : (calculate_aligned_similarity i1 i2 a1 a2).pixel_similarity
      = 1 - imgMSE
          (resize_content_to_same_size (convert_to_white_bg i1 a1)
            (convert_to_white_bg i2 a2)).1
          (resize_content_to_same_size (convert_to_white_bg i1 a1)
            (convert_to_white_bg i2 a2)).2 / (255 * 255 * 3) := rfl
  have hhist_eq : (calculate_aligned_similarity i1 i2 a1 a2).histogram_similarity
      = avgHistSimilarity
          (resize_content_to_same_size (convert_to_white_bg i1 a1)
            (convert_to_white_bg i2 a2)).1
          (resize_content_to_same_size (convert_to_white_bg i1 a1)
            (convert_to_white_bg i2 a2)).2 := rfl
  have hssim_eq : (calculate_aligned_similarity i1 i2 a1 a2).ssim
      = structural_similarity
          (cvtColorBGR2GRAY (resize_content_to_same_size (convert_to_white_bg i1 a1)
            (convert_to_white_bg i2 a2)).1)
          (cvtColorBGR2GRAY (resize_content_to_same_size (convert_to_white_bg i1 a1)
            (convert_to_white_bg i2 a2)).2) := rfl
  have hdivle : imgMSE
      (resize_content_to_same_size (convert_to_white_bg i1 a1)
        (convert_to_white_bg i2 a2)).1
      (resize_content_to_same_size (convert_to_white_bg i1 a1)
        (convert_to_white_bg i2 a2)).2 / (255 * 255 * 3) ≤ 1 / 3 := by
    rw [div_le_iff (by norm_num : (0 : ℚ) < 255 * 255 * 3)]
    nlinarith [hmle]
  have hdiv0 : (0 : ℚ) ≤ imgMSE
      (resize_content_to_same_size (convert_to_white_bg i1 a1)
        (convert_to_white_bg i2 a2)).1
      (resize_content_to_same_size (convert_to_white_bg i1 a1)
        (convert_to_white_bg i2 a2)).2 / (255 * 255 * 3) :=
    div_nonneg hm0 (by norm_num)
  obtain ⟨hh0, hh1⟩ := avgHistSimilarity_mem
    (resize_content_to_same_size (convert_to_white_bg i1 a1) (convert_to_white_bg i2 a2)).1
    (resize_content_to_same_size (convert_to_white_bg i1 a1) (convert_to_white_bg i2 a2)).2
  obtain ⟨hs0, hs1⟩ := abs_le.mp (structural_similarity_abs_le_one
    (cvtColorBGR2GRAY (resize_content_to_same_size (convert_to_white_bg i1 a1)
      (convert_to_white_bg i2 a2)).1)
    (cvtColorBGR2GRAY (resize_content_to_same_size (convert_to_white_bg i1 a1)
      (convert_to_white_bg i2 a2)).2))
  refine ⟨⟨?_, ?_⟩, ⟨?_, ?_⟩, ?_, ?_⟩
  · rw [hpix_eq]
    linarith
  · rw [hpix_eq]
    linarith
  · rw [hhist_eq]
    exact hh0
  · rw [hhist_eq]
    exact hh1
  · have heq : (calculate_aligned_similarity i1 i2 a1 a2).perceptual_similarity
        = ((calculate_aligned_similarity i1 i2 a1 a2).ssim : ℝ) * 0.5
          + ((calculate_aligned_similarity i1 i2 a1 a2).pixel_similarity : ℝ) * 0.3
          + (calculate_aligned_similarity i1 i2 a1 a2).histogram_similarity * 0.2 := rfl
    rw [heq, hpix_eq, hhist_eq, hssim_eq]
    have hsR : ((-1 : ℚ) : ℝ) ≤ ((structural_similarity _ _ : ℚ) : ℝ) :=
      Rat.cast_le.mpr hs0
    have hmR1 : ((imgMSE _ _ / (255 * 255 * 3) : ℚ) : ℝ) ≤ ((1 / 3 : ℚ) : ℝ) :=
      Rat.cast_le.mpr hdivle
    have hmR0 : ((0 : ℚ) : ℝ) ≤ ((imgMSE _ _ / (255 * 255 * 3) : ℚ) : ℝ) :=
      Rat.cast_le.mpr hdiv0
    push_cast at hsR hmR1 hmR0 ⊢
    linarith
  · have heq : (calculate_aligned_similarity i1 i2 a1 a2).perceptual_similarity
        = ((calculate_aligned_similarity i1 i2 a1 a2).ssim : ℝ) * 0.5
          + ((calculate_aligned_similarity i1 i2 a1 a2).pixel_similarity : ℝ) * 0.3
          + (calculate_aligned_similarity i1 i2 a1 a2).histogram_similarity * 0.2 := rfl
    rw [heq, hpix_eq, hhist_eq, hssim_eq]
    have hsR : ((structural_similarity _ _ : ℚ) : ℝ) ≤ ((1 : ℚ) : ℝ) :=
      Rat.cast_le.mpr hs1
    have hmR1 : ((imgMSE _ _ / (255 * 255 * 3) : ℚ) : ℝ) ≤ ((1 / 3 : ℚ) : ℝ) :=
      Rat.cast_le.mpr hdivle
    have hmR0 : ((0 : ℚ) : ℝ) ≤ ((imgMSE _ _ / (255 * 255 * 3) : ℚ) : ℝ) :=
      Rat.cast_le.mpr hdiv0
    push_cast at hsR hmR1 hmR0 ⊢
    linarith

/-- Witness for the amended C5 at the concrete valid stripe pair. -/
theorem C5_amended_ranges_witness :
    0 ≤ (calculate_aligned_similarity C5imgA C5imgB false false).pixel_similarity ∧
    (calculate_aligned_similarity C5imgA C5imgB false false).histogram_similarity ≤ 1 := by
  have h := C5_amended_ranges C5imgA C5imgB
    (fun y x ch => by
      show (if x % 2 = 0 then 0 else 255) ≤ 255
      split_ifs <;> norm_num)
    (fun y x ch => by
      show (if x % 2 = 0 then 255 else 0) ≤ 255
      split_ifs <;> norm_num)
    false false
  exact ⟨h.1.1, h.2.1.2⟩

/-! ## C4: symmetry -/

theorem imgMSE_comm {a b : Img} (hh : a.h = b.h) (hw : a.w = b.w) :
    imgMSE a b = imgMSE b a := by
  unfold imgMSE
  rw [hh, hw]
  congr 1
  exact Finset.sum_congr rfl fun y _ => Finset.sum_congr rfl fun x _ =>
    Finset.sum_congr rfl fun ch _ => by ring

theorem ssimWindow_comm (g1 g2 : Img) (ty tx : ℕ) :
    ssimWindow g1 g2 ty tx = ssimWindow g2 g1 ty tx := by
  simp only [ssimWindow]
  have hxy : winMean (fun y x => (g1.px y x 0 : ℚ) * (g2.px y x 0 : ℚ)) ty tx
      = winMean (fun y x => (g2.px y x 0 : ℚ) * (g1.px y x 0 : ℚ)) ty tx := by
    unfold winMean
    congr 1
    exact Finset.sum_congr rfl fun dy _ => Finset.sum_congr rfl fun dx _ => by ring
  rw [hxy]
  ring

theorem structural_similarity_comm {g1 g2 : Img} (hh : g1.h = g2.h) (hw : g1.w = g2.w) :
    structural_similarity g1 g2 = structural_similarity g2 g1 := by
  unfold structural_similarity
  rw [hh, hw]
  congr 1
  exact Finset.sum_congr rfl fun ty _ => Finset.sum_congr rfl fun tx _ =>
    ssimWindow_comm g1 g2 ty tx

theorem compareHistCorrel_comm (f g : ℕ → ℝ) :
    compareHistCorrel f g = compareHistCorrel g f := by
  simp only [compareHistCorrel]
  rw [show ∑ i in Finset.range 256,
      (f i - (∑ j in Finset.range 256, f j) / 256) * (g i - (∑ j in Finset.range 256, g j) / 256)
      = ∑ i in Finset.range 256,
        (g i - (∑ j in Finset.range 256, g j) / 256) * (f i - (∑ j in Finset.range 256, f j) / 256)
    from Finset.sum_congr rfl fun i _ => by ring]
  rw [mul_comm (∑ i in Finset.range 256, (f i - (∑ j in Finset.range 256, f j) / 256) ^ 2)
    (∑ i in Finset.range 256, (g i - (∑ j in Finset.range 256, g j) / 256) ^ 2)]

theorem avgHistSimilarity_comm (a b : Img) :
    avgHistSimilarity a b = avgHistSimilarity b a := by
  unfold avgHistSimilarity channelHistSim
  rw [compareHistCorrel_comm (cvNormalizeL2 fun i => (calcHist a 0 i : ℝ)),
    compareHistCorrel_comm (cvNormalizeL2 fun i => (calcHist a 1 i : ℝ)),
    compareHistCorrel_comm (cvNormalizeL2 fun i => (calcHist a 2 i : ℝ))]

theorem hashHammingDist_comm (f g : ℕ → ℕ → Bool) :
    hashHammingDist f g = hashHammingDist g f := by
  unfold hashHammingDist
  congr 1
  apply Finset.filter_congr
  intro p _
  simp [ne_comm]

/-- The aligner commutes with swapping its arguments whenever the two areas
differ or the two sizes agree (the only asymmetric case is the equal-area,
different-size tie, which keeps the first argument's size). -/
theorem resize_content_swap {b1 b2 : Img}
    (h : b1.h * b1.w ≠ b2.h * b2.w ∨ (b1.h = b2.h ∧ b1.w = b2.w)) :
    resize_content_to_same_size b2 b1
      = ((resize_content_to_same_size b1 b2).2, (resize_content_to_same_size b1 b2).1) := by
  rcases h with hne | ⟨hh, hw⟩
  · rcases lt_or_gt_of_ne hne with hlt | hgt
    · rw [resize_content_of_gt hlt, resize_content_of_le (le_of_lt hlt)]
      have hd : (b2.w, b2.h) ≠ (b1.w, b1.h) := by
        intro hc
        rw [Prod.mk.injEq] at hc
        rw [hc.1, hc.2] at hlt
        exact absurd hlt (lt_irrefl _)
      rw [if_pos hd]
    · rw [resize_content_of_le (le_of_lt hgt), resize_content_of_gt hgt]
      have hd : (b1.w, b1.h) ≠ (b2.w, b2.h) := by
        intro hc
        rw [Prod.mk.injEq] at hc
        rw [hc.1, hc.2] at hgt
        exact absurd hgt (lt_irrefl _)
      rw [if_pos hd]
  · have harea : b1.h * b1.w = b2.h * b2.w := by rw [hh, hw]
    rw [resize_content_of_le (le_of_eq harea), resize_content_of_le (le_of_eq harea.symm)]
    have h1 : ¬ (b1.w, b1.h) ≠ (b2.w, b2.h) := by
      rw [hh, hw]
      exact not_ne_iff.mpr rfl
    have h2 : ¬ (b2.w, b2.h) ≠ (b1.w, b1.h) := by
      rw [hh, hw]
      exact not_ne_iff.mpr rfl
    rw [if_neg h1, if_neg h2]

/-- Swapping the two contents swaps nothing observable in the metric suite
when their areas differ or their sizes agree: MSE, pixel similarity, SSIM,
histogram similarity and the composite are symmetric. -/
theorem calculate_aligned_similarity_symm (c1 c2 : Img) (f1 f2 : Bool)
    (h : c1.h * c1.w ≠ c2.h * c2.w ∨ (c1.h = c2.h ∧ c1.w = c2.w)) :
    (calculate_aligned_similarity c2 c1 f2 f1).mse
        = (calculate_aligned_similarity c1 c2 f1 f2).mse ∧
    (calculate_aligned_similarity c2 c1 f2 f1).pixel_similarity
        = (calculate_aligned_similarity c1 c2 f1 f2).pixel_similarity ∧
    (calculate_aligned_similarity c2 c1 f2 f1).ssim
        = (calculate_aligned_similarity c1 c2 f1 f2).ssim ∧
    (calculate_aligned_similarity c2 c1 f2 f1).histogram_similarity
        = (calculate_aligned_similarity c1 c2 f1 f2).histogram_similarity ∧
    (calculate_aligned_similarity c2 c1 f2 f1).perceptual_similarity
        = (calculate_aligned_similarity c1 c2 f1 f2).perceptual_similarity := by
  have hd1 := convert_to_white_bg_dims c1 f1
  have hd2 := convert_to_white_bg_dims c2 f2
  have hcond : (convert_to_white_bg c1 f1).h * (convert_to_white_bg c1 f1).w
      ≠ (convert_to_white_bg c2 f2).h * (convert_to_white_bg c2 f2).w
      ∨ ((convert_to_white_bg c1 f1).h = (convert_to_white_bg c2 f2).h
        ∧ (convert_to_white_bg c1 f1).w = (convert_to_white_bg c2 f2).w) := by
    rw [hd1.1, hd1.2, hd2.1, hd2.2]
    exact h
  have hswap := resize_content_swap hcond
  obtain ⟨hph, hpw⟩ := resize_content_same_dims (convert_to_white_bg c1 f1)
    (convert_to_white_bg c2 f2)
  have hmse : (calculate_aligned_similarity c2 c1 f2 f1).mse
      = (calculate_aligned_similarity c1 c2 f1 f2).mse := by
    show imgMSE (resize_content_to_same_size (convert_to_white_bg c2 f2)
        (convert_to_white_bg c1 f1)).1
      (resize_content_to_same_size (convert_to_white_bg c2 f2)
        (convert_to_white_bg c1 f1)).2
      = imgMSE (resize_content_to_same_size (convert_to_white_bg c1 f1)
          (convert_to_white_bg c2 f2)).1
        (resize_content_to_same_size (convert_to_white_bg c1 f1)
          (convert_to_white_bg c2 f2)).2
    rw [hswap]
    exact imgMSE_comm hph.symm hpw.symm
  have hssim : (calculate_aligned_similarity c2 c1 f2 f1).ssim
      = (calculate_aligned_similarity c1 c2 f1 f2).ssim := by
    show structural_similarity
        (cvtColorBGR2GRAY (resize_content_to_same_size (convert_to_white_bg c2 f2)
          (convert_to_white_bg c1 f1)).1)
        (cvtColorBGR2GRAY (resize_content_to_same_size (convert_to_white_bg c2 f2)
          (convert_to_white_bg c1 f1)).2)
      = structural_similarity
          (cvtColorBGR2GRAY (resize_content_to_same_size (convert_to_white_bg c1 f1)
            (convert_to_white_bg c2 f2)).1)
          (cvtColorBGR2GRAY (resize_content_to_same_size (convert_to_white_bg c1 f1)
            (convert_to_white_bg c2 f2)).2)
    rw [hswap]
    exact structural_similarity_comm hph.symm hpw.symm
  have hhist : (calculate_aligned_similarity c2 c1 f2 f1).histogram_similarity
      = (calculate_aligned_similarity c1 c2 f1 f2).histogram_similarity := by
    show avgHistSimilarity (resize_content_to_same_size (convert_to_white_bg c2 f2)
        (convert_to_white_bg c1 f1)).1
      (resize_content_to_same_size (convert_to_white_bg c2 f2)
        (convert_to_white_bg c1 f1)).2
      = avgHistSimilarity (resize_content_to_same_size (convert_to_white_bg c1 f1)
          (convert_to_white_bg c2 f2)).1
        (resize_content_to_same_size (convert_to_white_bg c1 f1)
          (convert_to_white_bg c2 f2)).2
    rw [hswap]
    exact avgHistSimilarity_comm _ _
  have hpix : (calculate_aligned_similarity c2 c1 f2 f1).pixel_similarity
      = (calculate_aligned_similarity c1 c2 f1 f2).pixel_similarity := by
    show (1 : ℚ) - (calculate_aligned_similarity c2 c1 f2 f1).mse / (255 * 255 * 3)
      = 1 - (calculate_aligned_similarity c1 c2 f1 f2).mse / (255 * 255 * 3)
    rw [hmse]
  have hperc : (calculate_aligned_similarity c2 c1 f2 f1).perceptual_similarity
      = (calculate_aligned_similarity c1 c2 f1 f2).perceptual_similarity := by
    show ((calculate_aligned_similarity c2 c1 f2 f1).ssim : ℝ) * 0.5
        + ((calculate_aligned_similarity c2 c1 f2 f1).pixel_similarity : ℝ) * 0.3
        + (calculate_aligned_similarity c2 c1 f2 f1).histogram_similarity * 0.2
      = ((calculate_aligned_similarity c1 c2 f1 f2).ssim : ℝ) * 0.5
        + ((calculate_aligned_similarity c1 c2 f1 f2).pixel_similarity : ℝ) * 0.3
        + (calculate_aligned_similarity c1 c2 f1 f2).histogram_similarity * 0.2
    rw [hssim, hpix, hhist]
  exact ⟨hmse, hpix, hssim, hhist, hperc⟩

/-- The six metrics of the report formulas are symmetric in the two inputs
whenever the two content regions have different pixel areas or identical
dimensions. -/
theorem compare_decoded_metrics_symm (imgA imgB : Img)
    (h : (extract_content_bbox imgA).content.h * (extract_content_bbox imgA).content.w
        ≠ (extract_content_bbox imgB).content.h * (extract_content_bbox imgB).content.w
      ∨ ((extract_content_bbox imgA).content.h = (extract_content_bbox imgB).content.h
        ∧ (extract_content_bbox imgA).content.w = (extract_content_bbox imgB).content.w)) :
    (compare_decoded imgA imgB).MSE = (compare_decoded imgB imgA).MSE ∧
    (compare_decoded imgA imgB).SSIM = (compare_decoded imgB imgA).SSIM ∧
    (compare_decoded imgA imgB).Histogram_Similarity
      = (compare_decoded imgB imgA).Histogram_Similarity ∧
    (compare_decoded imgA imgB).Perceptual_Similarity
      = (compare_decoded imgB imgA).Perceptual_Similarity ∧
    (compare_decoded imgA imgB).pHash_distance = (compare_decoded imgB imgA).pHash_distance ∧
    (compare_decoded imgA imgB).dHash_distance = (compare_decoded imgB imgA).dHash_distance := by
  have hs := calculate_aligned_similarity_symm (extract_content_bbox imgA).content
    (extract_content_bbox imgB).content (extract_content_bbox imgA).has_alpha
    (extract_content_bbox imgB).has_alpha h
  refine ⟨hs.1.symm, hs.2.2.1.symm, hs.2.2.2.1.symm, hs.2.2.2.2.symm, ?_, ?_⟩
  · show hashHammingDist (phashBits imgA) (phashBits imgB)
      = hashHammingDist (phashBits imgB) (phashBits imgA)
    exact hashHammingDist_comm _ _
  · show hashHammingDist (dhashBits imgA) (dhashBits imgB)
      = hashHammingDist (dhashBits imgB) (dhashBits imgA)
    exact hashHammingDist_comm _ _

/-- The SSIM raising condition is invariant under swapping the aligner's
arguments whenever their areas differ or their sizes agree. -/
theorem ssim_guard_swap {b1 b2 : Img}
    (h : b1.h * b1.w ≠ b2.h * b2.w ∨ (b1.h = b2.h ∧ b1.w = b2.w)) :
    ssim_win_size_exceeds (resize_content_to_same_size b2 b1).1
      (resize_content_to_same_size b2 b1).2
    ↔ ssim_win_size_exceeds (resize_content_to_same_size b1 b2).1
      (resize_content_to_same_size b1 b2).2 := by
  rw [resize_content_swap h]
  unfold ssim_win_size_exceeds
  tauto

/-- Under the same hypothesis the SSIM raising condition is itself the same
for the two argument orders (the aligner output pairs are swaps of each
other). -/
theorem ssim_guard_symm (imgA imgB : Img)
    (h : (extract_content_bbox imgA).content.h * (extract_content_bbox imgA).content.w
        ≠ (extract_content_bbox imgB).content.h * (extract_content_bbox imgB).content.w
      ∨ ((extract_content_bbox imgA).content.h = (extract_content_bbox imgB).content.h
        ∧ (extract_content_bbox imgA).content.w = (extract_content_bbox imgB).content.w)) :
    (ssim_win_size_exceeds
      (resize_content_to_same_size
        (convert_to_white_bg (extract_content_bbox imgB).content
          (extract_content_bbox imgB).has_alpha)
        (convert_to_white_bg (extract_content_bbox imgA).content
          (extract_content_bbox imgA).has_alpha)).1
      (resize_content_to_same_size
        (convert_to_white_bg (extract_content_bbox imgB).content
          (extract_content_bbox imgB).has_alpha)
        (convert_to_white_bg (extract_content_bbox imgA).content
          (extract_content_bbox imgA).has_alpha)).2)
    ↔ ssim_win_size_exceeds
      (resize_content_to_same_size
        (convert_to_white_bg (extract_content_bbox imgA).content
          (extract_content_bbox imgA).has_alpha)
        (convert_to_white_bg (extract_content_bbox imgB).content
          (extract_content_bbox imgB).has_alpha)).1
      (resize_content_to_same_size
        (convert_to_white_bg (extract_content_bbox imgA).content
          (extract_content_bbox imgA).has_alpha)
        (convert_to_white_bg (extract_content_bbox imgB).content
          (extract_content_bbox imgB).has_alpha)).2 := by
  have hd1 := convert_to_white_bg_dims (extract_content_bbox imgA).content
    (extract_content_bbox imgA).has_alpha
  have hd2 := convert_to_white_bg_dims (extract_content_bbox imgB).content
    (extract_content_bbox imgB).has_alpha
  have hcond : (convert_to_white_bg (extract_content_bbox imgA).content
        (extract_content_bbox imgA).has_alpha).h
      * (convert_to_white_bg (extract_content_bbox imgA).content
          (extract_content_bbox imgA).has_alpha).w
      ≠ (convert_to_white_bg (extract_content_bbox imgB).content
          (extract_content_bbox imgB).has_alpha).h
        * (convert_to_white_bg (extract_content_bbox imgB).content
            (extract_content_bbox imgB).has_alpha).w
      ∨ ((convert_to_white_bg (extract_content_bbox imgA).content
            (extract_content_bbox imgA).has_alpha).h
          = (convert_to_white_bg (extract_content_bbox imgB).content
              (extract_content_bbox imgB).has_alpha).h
        ∧ (convert_to_white_bg (extract_content_bbox imgA).content
            (extract_content_bbox imgA).has_alpha).w
          = (convert_to_white_bg (extract_content_bbox imgB).content
              (extract_content_bbox imgB).has_alpha).w) := by
    rw [hd1.1, hd1.2, hd2.1, hd2.2]
    exact h
  exact ssim_guard_swap hcond

set_option maxHeartbeats 1000000 in
set_option maxRecDepth 40000 in
/-- Counterexample to C4: take A a uniform black 7×8 image and B a uniform
black 56×1 column — equal content areas (56), different dimensions.  The
aligner's target size always follows the first argument in the equal-area
tie, so `compare(A, B)` aligns at 8×7 and returns a full report, while
`compare(B, A)` aligns at 1×56, whose width is below the 7×7 SSIM window:
the SSIM call raises and `compare(B, A)` returns no values at all.  The two
call orders therefore do not return identical metric values — one of them
returns nothing — independently of any resampling-kernel detail. -/
theorem C4_counterexample :
    (extract_content_bbox C4imgA).content.area = (extract_content_bbox C4imgB).content.area ∧
    ¬((extract_content_bbox C4imgA).content.h = (extract_content_bbox C4imgB).content.h ∧
      (extract_content_bbox C4imgA).content.w = (extract_content_bbox C4imgB).content.w) ∧
    compare_decoded_checked C4imgA C4imgB = .ok (compare_decoded C4imgA C4imgB) ∧
    compare_decoded_checked C4imgB C4imgA
      = .error CompareError.winSizeExceedsImageExtent := by
  refine ⟨by decide, by decide, ?_, ?_⟩
  · unfold compare_decoded_checked
    rw [if_neg (by decide)]
  · unfold compare_decoded_checked
    rw [if_pos (by decide)]

/-- C4 amended: `compare(A, B)` and `compare(B, A)` behave identically
whenever the two content regions have different pixel areas or identical
dimensions: they fail with the same error, or both succeed and return
identical `mse`, `ssim`, `histogramSimilarity`, `perceptualSimilarity`,
`pHashDistance` and `dHashDistance`.  Only the equal-area
different-dimensions tie (see the counterexample) breaks this symmetry. -/
theorem C4_amended_compare_symmetric (imgA imgB : Img)
    (h : (extract_content_bbox imgA).content.h * (extract_content_bbox imgA).content.w
        ≠ (extract_content_bbox imgB).content.h * (extract_content_bbox imgB).content.w
      ∨ ((extract_content_bbox imgA).content.h = (extract_content_bbox imgB).content.h
        ∧ (extract_content_bbox imgA).content.w = (extract_content_bbox imgB).content.w)) :
    (∀ e, compare_decoded_checked imgA imgB = .error e
      ↔ compare_decoded_checked imgB imgA = .error e) ∧
    (∀ rAB rBA, compare_decoded_checked imgA imgB = .ok rAB →
      compare_decoded_checked imgB imgA = .ok rBA →
      rAB.MSE = rBA.MSE ∧ rAB.SSIM = rBA.SSIM ∧
      rAB.Histogram_Similarity = rBA.Histogram_Similarity ∧
      rAB.Perceptual_Similarity = rBA.Perceptual_Similarity ∧
      rAB.pHash_distance = rBA.pHash_distance ∧
      rAB.dHash_distance = rBA.dHash_distance) := by
  have hguard := ssim_guard_symm imgA imgB h
  constructor
  · intro e
    unfold compare_decoded_checked
    by_cases hg : ssim_win_size_exceeds
        (resize_content_to_same_size
          (convert_to_white_bg (extract_content_bbox imgA).content
            (extract_content_bbox imgA).has_alpha)
          (convert_to_white_bg (extract_content_bbox imgB).content
            (extract_content_bbox imgB).has_alpha)).1
        (resize_content_to_same_size
          (convert_to_white_bg (extract_content_bbox imgA).content
            (extract_content_bbox imgA).has_alpha)
          (convert_to_white_bg (extract_content_bbox imgB).content
            (extract_content_bbox imgB).has_alpha)).2
    · rw [if_pos hg, if_pos (hguard.mpr hg)]
    · rw [if_neg hg, if_neg (fun hc => hg (hguard.mp hc))]
      constructor <;> (intro hcon; exact Except.noConfusion hcon)
  · intro rAB rBA hAB hBA
    unfold compare_decoded_checked at hAB hBA
    by_cases hg : ssim_win_size_exceeds
        (resize_content_to_same_size
          (convert_to_white_bg (extract_content_bbox imgA).content
            (extract_content_bbox imgA).has_alpha)
          (convert_to_white_bg (extract_content_bbox imgB).content
            (extract_content_bbox imgB).has_alpha)).1
        (resize_content_to_same_size
          (convert_to_white_bg (extract_content_bbox imgA).content
            (extract_content_bbox imgA).has_alpha)
          (convert_to_white_bg (extract_content_bbox imgB).content
            (extract_content_bbox imgB).has_alpha)).2
    · rw [if_pos hg] at hAB
      exact Except.noConfusion hAB
    · rw [if_neg hg] at hAB
      rw [if_neg (fun hc => hg (hguard.mp hc))] at hBA
      obtain rfl := Except.ok.inj hAB
      obtain rfl := Except.ok.inj hBA
      exact compare_decoded_metrics_symm imgA imgB h

set_option maxHeartbeats 1000000 in
set_option maxRecDepth 40000 in
/-- Witness for the amended C4 at a concrete equal-dimensions pair on which
both call orders succeed. -/
theorem C4_amended_compare_symmetric_witness :
    compare_decoded_checked C4imgC C4imgD = .ok (compare_decoded C4imgC C4imgD) ∧
    (compare_decoded C4imgC C4imgD).MSE = (compare_decoded C4imgD C4imgC).MSE ∧
    (compare_decoded C4imgC C4imgD).pHash_distance
      = (compare_decoded C4imgD C4imgC).pHash_distance := by
  have h := C4_amended_compare_symmetric C4imgC C4imgD (Or.inr ⟨by decide, by decide⟩)
  have hok1 : compare_decoded_checked C4imgC C4imgD = .ok (compare_decoded C4imgC C4imgD) := by
    unfold compare_decoded_checked
    rw [if_neg (by decide)]
  have hok2 : compare_decoded_checked C4imgD C4imgC = .ok (compare_decoded C4imgD C4imgC) := by
    unfold compare_decoded_checked
    rw [if_neg (by decide)]
  have h6 := h.2 (compare_decoded C4imgC C4imgD) (compare_decoded C4imgD C4imgC) hok1 hok2
  exact ⟨hok1, h6.1, h6.2.2.2.2.1⟩

end PicCompare
